import Mathlib

/-!
# FortniteLeaderboard: a shallow embedding of `src/components/FortniteLeaderboard.js`

The React component keeps its state in `useState` cells and changes it through
event handlers. Each handler is embedded as a function on an explicit `State`
record. A finite JavaScript number is embedded as the rational it denotes, and the
products and sums of `calculateRank` are rounded to binary64 as the language does.
Comparing two finite numbers, and the sign of their difference, are exact in binary64,
so the sort comparators work on the rationals directly. Strings are `String`, `null`
is `none`. The asynchronous `fetchPlayerData` call is a parameter giving,
for each identifier, either the record built from the response or the message of
the error that was thrown; handlers that may call it also report the identifiers
they passed to it. The body of `fetchPlayerData` itself is embedded as a function of
the response, over JSON values with JavaScript truthiness.
-/

namespace FortniteLeaderboard

/-! ## Data model -/

/-- The record returned by `fetchPlayerData` (source lines 54-62). -/
structure PlayerStat where
  username : String
  level : ℚ
  kills : ℚ
  wins : ℚ
  kd : ℚ
  matchesPlayed : ℚ
  winRate : ℚ
deriving DecidableEq

/-- The object returned by `calculateRank`: a tier name and an accent colour. -/
structure Rank where
  name : String
  color : String
deriving DecidableEq

/-- The four keys `handleSort` is called with (source lines 438-447). -/
inductive SortKey where
  | kills
  | wins
  | winRate
  | kd
deriving DecidableEq

/-- The two values of `sortConfig.direction`. -/
inductive Direction where
  | asc
  | desc
deriving DecidableEq

/-- The `sortConfig` state cell. -/
structure SortConfig where
  key : SortKey
  direction : Direction
deriving DecidableEq

/-- The two values of `activeTab`. -/
inductive Tab where
  | player
  | friends
deriving DecidableEq

/-- The state cells of the component (source lines 5-13). -/
structure State where
  searchQuery : String
  loading : Bool
  error : Option String
  player : Option PlayerStat
  friendId : String
  friends : List PlayerStat
  activeTab : Tab
  sortConfig : SortConfig
  myProfile : Option PlayerStat
deriving DecidableEq

/-- The initial values given to `useState` (source lines 5-13). -/
def initialState : State where
  searchQuery := ""
  loading := false
  error := none
  player := none
  friendId := ""
  friends := []
  activeTab := Tab.player
  sortConfig := { key := SortKey.kills, direction := Direction.desc }
  myProfile := none

/-- Property access `a[sortConfig.key]` for the four sortable keys. -/
def PlayerStat.get (a : PlayerStat) : SortKey → ℚ
  | SortKey.kills => a.kills
  | SortKey.wins => a.wins
  | SortKey.winRate => a.winRate
  | SortKey.kd => a.kd

/-! ## Numbers -/

/-- A JavaScript number: a binary64 value. `finite q` is the finite value `q` (both zeros
are `finite 0`). -/
inductive JsNumber where
  | nan
  | negInf
  | finite (q : ℚ)
  | posInf
deriving DecidableEq

/-- Rounding to the nearest integer, ties to the even one. -/
def roundEven (m : ℚ) : ℤ :=
  if m - ⌊m⌋ < 1 / 2 then ⌊m⌋
  else if 1 / 2 < m - ⌊m⌋ then ⌊m⌋ + 1
  else if ⌊m⌋ % 2 = 0 then ⌊m⌋
  else ⌊m⌋ + 1

/-- Exponent of the spacing of binary64 values around `x`: 52 below the binary exponent of
`x`, and `-1074` throughout the subnormal range. -/
def ulpExp (x : ℚ) : ℤ :=
  max (Int.log 2 |x|) (-1022) - 52

/-- The multiple of `2 ^ ulpExp x` nearest to `x`, ties to the even multiple. -/
def roundGrid (x : ℚ) : ℚ :=
  (roundEven (x / 2 ^ ulpExp x) : ℚ) * 2 ^ ulpExp x

/-- The binary64 value of the exact result `x` (round to nearest, ties to even); a result
of magnitude `2 ^ 1024` or more is an infinity. -/
def round64 (x : ℚ) : JsNumber :=
  if (2 : ℚ) ^ (1024 : ℕ) ≤ roundGrid x then JsNumber.posInf
  else if roundGrid x ≤ -(2 : ℚ) ^ (1024 : ℕ) then JsNumber.negInf
  else JsNumber.finite (roundGrid x)

/-- The operator `*` on two finite numbers. -/
def mul64 (x y : ℚ) : JsNumber :=
  round64 (x * y)

/-- The operator `+`. -/
def JsNumber.add : JsNumber → JsNumber → JsNumber
  | JsNumber.nan, _ => JsNumber.nan
  | _, JsNumber.nan => JsNumber.nan
  | JsNumber.posInf, JsNumber.negInf => JsNumber.nan
  | JsNumber.negInf, JsNumber.posInf => JsNumber.nan
  | JsNumber.posInf, _ => JsNumber.posInf
  | _, JsNumber.posInf => JsNumber.posInf
  | JsNumber.negInf, _ => JsNumber.negInf
  | _, JsNumber.negInf => JsNumber.negInf
  | JsNumber.finite x, JsNumber.finite y => round64 (x + y)

/-- The comparison `s > t` with a finite `t`. -/
def JsNumber.gt (s : JsNumber) (t : ℚ) : Bool :=
  match s with
  | JsNumber.nan => false
  | JsNumber.negInf => false
  | JsNumber.finite q => decide (t < q)
  | JsNumber.posInf => true

/-- The comparison `s <= t` with a finite `t`. -/
def JsNumber.le (s : JsNumber) (t : ℚ) : Bool :=
  match s with
  | JsNumber.nan => false
  | JsNumber.negInf => true
  | JsNumber.finite q => decide (q ≤ t)
  | JsNumber.posInf => false

/-- The rational `x` is a binary64 value: rounding leaves it unchanged. -/
def IsDouble (x : ℚ) : Prop :=
  round64 x = JsNumber.finite x

/-- The number is `Infinity` or a finite number that is not negative. -/
def JsNumber.NonNeg (s : JsNumber) : Prop :=
  s = JsNumber.posInf ∨ ∃ q : ℚ, 0 ≤ q ∧ s = JsNumber.finite q

/-- The order used to compare two runs of the same computation: `a` is `NaN` or
`-Infinity`, or neither number is `NaN` and `a` is at most `b`. -/
def JsNumber.Below : JsNumber → JsNumber → Prop
  | JsNumber.nan, _ => True
  | JsNumber.negInf, _ => True
  | JsNumber.finite x, JsNumber.finite y => x ≤ y
  | JsNumber.finite _, JsNumber.posInf => True
  | JsNumber.posInf, JsNumber.posInf => True
  | _, _ => False

/-! ## Rank classification -/

/-- The local constant `score` of `calculateRank` (source line 132): four products and
three sums, left to right, each rounded to binary64. -/
def score (stats : PlayerStat) : JsNumber :=
  (((mul64 stats.wins 5).add (mul64 stats.kills 0.5)).add (mul64 stats.winRate 2)).add
    (mul64 stats.kd 10)

/-- The function `calculateRank` (source lines 130-140). -/
def calculateRank (stats : PlayerStat) : Rank :=
  if (score stats).gt 1000 then { name := "Mythic", color := "from-purple-500 to-pink-600" }
  else if (score stats).gt 750 then
    { name := "Legendary", color := "from-yellow-500 to-orange-600" }
  else if (score stats).gt 500 then { name := "Epic", color := "from-indigo-500 to-purple-600" }
  else if (score stats).gt 300 then { name := "Rare", color := "from-blue-500 to-indigo-600" }
  else if (score stats).gt 150 then
    { name := "Uncommon", color := "from-green-500 to-teal-600" }
  else { name := "Common", color := "from-gray-500 to-gray-600" }

/-- The record `{wins: 41, kills: 1066, winRate: 84, kd: 9.4}`; its `kd` is the binary64
value written `9.4`. -/
def nearThousand : PlayerStat where
  username := "Ninja"
  level := 0
  kills := 1066
  wins := 41
  kd := 5291729562160333 / 562949953421312
  matchesPlayed := 0
  winRate := 84

/-- The record `{kills: 500, wins: 100, kd: 2.0, winRate: 30.0, level: 50}`. -/
def ninja : PlayerStat where
  username := "Ninja"
  level := 50
  kills := 500
  wins := 100
  kd := 2
  matchesPlayed := 0
  winRate := 30

/-- The six tier names, highest first. -/
def tierNames : List String :=
  ["Mythic", "Legendary", "Epic", "Rare", "Uncommon", "Common"]

/-! ## Leaderboard view -/

/-- The built-in `Array.prototype.sort(compareFn)` on a copy of the array. ECMAScript
requires it to be stable and to order `x` before `y` whenever the comparator is
consistent and `compareFn(x, y) < 0`. It is embedded as the stable insertion sort for
the relation `compareFn(x, y) ≤ 0`; by `sort_unique` every stable sort gives the same list
for a comparator that orders by a numeric key. -/
def sort {α : Type} (compareFn : α → α → ℚ) (xs : List α) : List α :=
  List.insertionSort (fun x y => compareFn x y ≤ 0) xs

/-- The comparator passed to `sort` inside `sortedFriends` (source lines 145-153). -/
def compareFriends (sortConfig : SortConfig) (a b : PlayerStat) : ℚ :=
  if a.get sortConfig.key < b.get sortConfig.key then
    (if sortConfig.direction = Direction.asc then -1 else 1)
  else if a.get sortConfig.key > b.get sortConfig.key then
    (if sortConfig.direction = Direction.asc then 1 else -1)
  else 0

/-- The memoised value `sortedFriends` (source lines 142-156). Every `SortKey` is a
non-empty string, so the guard `if (sortConfig.key)` always passes. -/
def sortedFriends (friends : List PlayerStat) (sortConfig : SortConfig) : List PlayerStat :=
  sort (compareFriends sortConfig) friends

/-- The object returned by `getTopStats`; a field is `none` where indexing with `[0]`
would give `undefined`. -/
structure TopStats where
  topKills : Option PlayerStat
  topWins : Option PlayerStat
  topKD : Option PlayerStat
deriving DecidableEq

/-- The function `getTopStats` (source lines 165-173); `none` is `null`. -/
def getTopStats (friends : List PlayerStat) : Option TopStats :=
  if friends.length = 0 then none
  else
    some {
      topKills := (sort (fun a b => b.kills - a.kills) friends)[0]?
      topWins := (sort (fun a b => b.wins - a.wins) friends)[0]?
      topKD := (sort (fun a b => b.kd - a.kd) friends)[0]? }

/-- Entry `e` is the earliest entry of `friends` whose `key` is the maximum: everything
before it has a strictly smaller key, everything after it a key no larger. -/
def IsFirstMax (key : PlayerStat → ℚ) (friends : List PlayerStat) (e : PlayerStat) : Prop :=
  ∃ before after, friends = before ++ e :: after ∧
    (∀ x ∈ before, key x < key e) ∧ (∀ x ∈ after, key x ≤ key e)

/-! ## Sort directive -/

/-- The other direction. -/
def Direction.opposite : Direction → Direction
  | Direction.asc => Direction.desc
  | Direction.desc => Direction.asc

/-- The handler `handleSort` (source lines 122-128). -/
def handleSort (key : SortKey) (s : State) : State :=
  let direction :=
    if s.sortConfig.key = key ∧ s.sortConfig.direction = Direction.desc then Direction.asc
    else Direction.desc
  { s with sortConfig := { key := key, direction := direction } }

/-! ## Strings -/

/-- The code points ECMAScript's `trim` strips: WhiteSpace and LineTerminator. -/
def isTrimmed (c : Char) : Bool :=
  c.toNat ∈ [0x09, 0x0A, 0x0B, 0x0C, 0x0D, 0x20, 0xA0, 0x1680, 0x2028, 0x2029, 0x202F,
    0x205F, 0x3000, 0xFEFF] || (0x2000 ≤ c.toNat && c.toNat ≤ 0x200A)

/-- The built-in `String.prototype.trim`. -/
def trim (s : String) : String :=
  String.mk ((s.data.dropWhile isTrimmed).reverse.dropWhile isTrimmed).reverse

/-- ASCII case folding: `String.prototype.toLowerCase` on strings whose letters are
ASCII. Used only to evaluate handlers on concrete ASCII inputs. -/
def asciiToLowerCase (s : String) : String :=
  String.mk (s.data.map Char.toLower)

/-! ## Handlers -/

/-- What an asynchronous handler did: the state once it has settled, and the identifiers
it passed to `fetchPlayerData`, in order. -/
structure Outcome where
  state : State
  lookups : List String
deriving DecidableEq

/-- The handler `handleSearch` (source lines 68-83). `fetchPlayerData u` is `Except.ok`
of the record on success and `Except.error` of `err.message` when the call throws. -/
def handleSearch (fetchPlayerData : String → Except String PlayerStat) (s : State) :
    Outcome :=
  if trim s.searchQuery = "" then { state := s, lookups := [] }
  else
    let s1 := { s with loading := true, error := none, player := none }
    match fetchPlayerData s.searchQuery with
    | Except.ok playerData =>
      { state := { s1 with player := some playerData, activeTab := Tab.player,
                           loading := false },
        lookups := [s.searchQuery] }
    | Except.error message =>
      { state := { s1 with error := some message, loading := false },
        lookups := [s.searchQuery] }

/-- The handler `handleAddFriend` (source lines 85-106). `toLowerCase` is the built-in
`String.prototype.toLowerCase`. -/
def handleAddFriend (toLowerCase : String → String)
    (fetchPlayerData : String → Except String PlayerStat) (s : State) : Outcome :=
  if trim s.friendId = "" then { state := s, lookups := [] }
  else if s.friends.any (fun friend => toLowerCase friend.username = toLowerCase s.friendId) then
    { state := { s with error := some "This player is already in your friends list" },
      lookups := [] }
  else
    let s1 := { s with loading := true, error := none }
    match fetchPlayerData s.friendId with
    | Except.ok friendData =>
      { state := { s1 with friends := s1.friends ++ [friendData], friendId := "",
                           loading := false },
        lookups := [s.friendId] }
    | Except.error message =>
      { state := { s1 with error := some ("Couldn't add friend: " ++ message),
                           loading := false },
        lookups := [s.friendId] }

/-- The click handler of the "Add to Friends" button (source lines 299-304). The button
is rendered only while `player` is set. -/
def addToFriends (s : State) : State :=
  match s.player with
  | none => s
  | some player =>
    if !(s.friends.any (fun f => f.username = player.username)) then
      { s with friends := s.friends ++ [player] }
    else s

/-- The handler `handleSetAsMyProfile` (source lines 108-116). -/
def handleSetAsMyProfile (s : State) : State :=
  match s.player with
  | none => s
  | some player =>
    let s1 := { s with myProfile := some player }
    if !(s.friends.any (fun f => f.username = player.username)) then
      { s1 with friends := s1.friends ++ [player] }
    else s1

/-- The handler `handleRemoveFriend` (source lines 118-120). -/
def handleRemoveFriend (username : String) (s : State) : State :=
  { s with friends := s.friends.filter (fun friend => friend.username ≠ username) }

/-- Usernames of a roster are pairwise distinct once letter case is ignored. -/
def CaseUnique (toLowerCase : String → String) (friends : List PlayerStat) : Prop :=
  (friends.map (fun f => toLowerCase f.username)).Nodup

instance (toLowerCase : String → String) (friends : List PlayerStat) :
    Decidable (CaseUnique toLowerCase friends) :=
  inferInstanceAs (Decidable (List.Nodup _))

/-- A record with the given username and all statistics zero, for concrete rosters. -/
def zeroStat (username : String) : PlayerStat where
  username := username
  level := 0
  kills := 0
  wins := 0
  kd := 0
  matchesPlayed := 0
  winRate := 0

/-- The six objects `calculateRank` can return (source lines 134-139), highest first. -/
def allRanks : List Rank :=
  [{ name := "Mythic", color := "from-purple-500 to-pink-600" },
   { name := "Legendary", color := "from-yellow-500 to-orange-600" },
   { name := "Epic", color := "from-indigo-500 to-purple-600" },
   { name := "Rare", color := "from-blue-500 to-indigo-600" },
   { name := "Uncommon", color := "from-green-500 to-teal-600" },
   { name := "Common", color := "from-gray-500 to-gray-600" }]

/-- Position of a tier name in the order Common < Uncommon < Rare < Epic < Legendary <
Mythic. -/
def tierLevel (name : String) : Nat :=
  List.indexOf name ["Common", "Uncommon", "Rare", "Epic", "Legendary", "Mythic"]

/-! ## Stats source -/

/-- A value read out of the parsed JSON response. `object` stands for any object or array;
JSON has no `NaN`. -/
inductive JsValue where
  | undefined
  | null
  | bool (b : Bool)
  | number (q : ℚ)
  | string (s : String)
  | object
deriving DecidableEq

/-- JavaScript truthiness, which decides the operator `||`. -/
def JsValue.truthy : JsValue → Bool
  | JsValue.undefined => false
  | JsValue.null => false
  | JsValue.bool b => b
  | JsValue.number q => decide (q ≠ 0)
  | JsValue.string s => decide (s ≠ "")
  | JsValue.object => true

/-- The operator `x || d`. -/
def JsValue.or (x d : JsValue) : JsValue :=
  if x.truthy then x else d

/-- The value is `undefined` or `null`. -/
def JsValue.isNullish (v : JsValue) : Prop :=
  v = JsValue.undefined ∨ v = JsValue.null

/-- The object `data.data.account`. -/
structure RawAccount where
  name : JsValue
deriving DecidableEq

/-- The object `data.data.battlePass`. -/
structure RawBattlePass where
  level : JsValue
deriving DecidableEq

/-- The object `data.data.stats.all.overall`; `matches_` is its field `matches`. -/
structure RawOverall where
  kills : JsValue
  wins : JsValue
  kd : JsValue
  matches_ : JsValue
  winRate : JsValue
deriving DecidableEq

/-- The object `data.data`; `none` is a field that is `undefined` or `null` (for `overall`,
also a missing link of the chain `stats.all.overall`). -/
structure RawData where
  account : Option RawAccount
  battlePass : Option RawBattlePass
  overall : Option RawOverall
deriving DecidableEq

/-- The HTTP response: `response.ok` and the parsed body `data` with its fields `data.data`
(`none` when falsy) and `data.error`. -/
structure Response where
  ok : Bool
  data : Option RawData
  error : JsValue
deriving DecidableEq

/-- The object literal returned by `fetchPlayerData` (source lines 54-62), before anything
is known about the types of its fields. -/
structure FetchedPlayer where
  username : JsValue
  level : JsValue
  kills : JsValue
  wins : JsValue
  kd : JsValue
  matchesPlayed : JsValue
  winRate : JsValue
deriving DecidableEq

/-- What `fetchPlayerData` throws: the `Error` built at source line 50 from the given
value, or the `TypeError` raised by reading a property of `undefined` or `null`. -/
inductive FetchError where
  | thrown (message : JsValue)
  | typeError
deriving DecidableEq

/-- The expression `data.data.battlePass?.level`. -/
def battlePassLevel : Option RawBattlePass → JsValue
  | some battlePass => battlePass.level
  | none => JsValue.undefined

/-- The function `fetchPlayerData` (source lines 40-66) from the response on. -/
def fetchPlayerData (response : Response) : Except FetchError FetchedPlayer :=
  match response.ok, response.data with
  | true, some data =>
    match data.overall, data.account with
    | some stats, some account =>
      Except.ok {
        username := account.name.or (JsValue.string "Unknown Player")
        level := (battlePassLevel data.battlePass).or (JsValue.number 0)
        kills := stats.kills.or (JsValue.number 0)
        wins := stats.wins.or (JsValue.number 0)
        kd := stats.kd.or (JsValue.number 0)
        matchesPlayed := stats.matches_.or (JsValue.number 0)
        winRate := stats.winRate.or (JsValue.number 0) }
    | _, _ => Except.error FetchError.typeError
  | _, _ =>
    Except.error (FetchError.thrown (response.error.or (JsValue.string "Player not found")))

/-- The fetched object as a `PlayerStat`, when its username is a string and its other
fields are numbers. -/
def FetchedPlayer.toPlayerStat? (p : FetchedPlayer) : Option PlayerStat :=
  match p.username, p.level, p.kills, p.wins, p.kd, p.matchesPlayed, p.winRate with
  | JsValue.string username, JsValue.number level, JsValue.number kills, JsValue.number wins,
    JsValue.number kd, JsValue.number matchesPlayed, JsValue.number winRate =>
    some { username := username, level := level, kills := kills, wins := wins, kd := kd,
           matchesPlayed := matchesPlayed, winRate := winRate }
  | _, _, _, _, _, _, _ => none

/-- The number a raw numeric field stands for: its value, or `0` when `undefined`/`null`;
`none` when the raw value is of another type. -/
def rawNumber : JsValue → Option ℚ
  | JsValue.number q => some q
  | JsValue.undefined => some 0
  | JsValue.null => some 0
  | _ => none

/-- Output field `out` is the zero-defaulted raw numeric field `raw`: never `undefined` or
`null`, the raw number when there is one, and `0` when the raw value is missing. -/
def NumericDefault (raw out : JsValue) : Prop :=
  ¬ out.isNullish ∧ (∀ q, raw = JsValue.number q → out = JsValue.number q) ∧
    (raw.isNullish → out = JsValue.number 0)

/-- Output `out` is the defaulted raw name `raw`: never `undefined` or `null`, the raw
name when it is a non-empty string, and "Unknown Player" when the raw name is missing or
the empty string. -/
def NameDefault (raw out : JsValue) : Prop :=
  ¬ out.isNullish ∧ (∀ s, raw = JsValue.string s → s ≠ "" → out = JsValue.string s) ∧
    (raw.isNullish ∨ raw = JsValue.string "" → out = JsValue.string "Unknown Player")

/-- The username a raw name stands for: itself when a non-empty string, "Unknown Player"
when empty, `undefined` or `null`; `none` when the raw value is of another type. -/
def rawName : JsValue → Option String
  | JsValue.string s => some (if s = "" then "Unknown Player" else s)
  | JsValue.undefined => some "Unknown Player"
  | JsValue.null => some "Unknown Player"
  | _ => none

/-! ## Numbers: theorems -/

/-- Rounding never goes below the floor. -/
theorem floor_le_roundEven (m : ℚ) : ⌊m⌋ ≤ roundEven m := by
  unfold roundEven
  split_ifs <;> omega

/-- Rounding never goes above the floor plus one. -/
theorem roundEven_le_floor_add_one (m : ℚ) : roundEven m ≤ ⌊m⌋ + 1 := by
  unfold roundEven
  split_ifs <;> omega

/-- An integer at most `m` is at most the rounding of `m`. -/
theorem le_roundEven_of_le (m : ℚ) (N : ℤ) (h : (N : ℚ) ≤ m) : N ≤ roundEven m :=
  le_trans (Int.le_floor.2 h) (floor_le_roundEven m)

/-- An integer at least `m` is at least the rounding of `m`. -/
theorem roundEven_le_of_le (m : ℚ) (N : ℤ) (h : m ≤ (N : ℚ)) : roundEven m ≤ N := by
  have hf : (⌊m⌋ : ℚ) ≤ m := Int.floor_le m
  have hfN : ⌊m⌋ ≤ N := Int.cast_le.1 (le_trans hf h)
  by_cases hm : m - ⌊m⌋ < 1 / 2
  · unfold roundEven
    rw [if_pos hm]
    exact hfN
  · have hlt : (⌊m⌋ : ℚ) < N := by linarith
    have hlt2 : ⌊m⌋ < N := Int.cast_lt.1 hlt
    exact le_trans (roundEven_le_floor_add_one m) hlt2

/-- Rounding to the nearest integer is monotone. -/
theorem roundEven_mono (m₁ m₂ : ℚ) (h : m₁ ≤ m₂) : roundEven m₁ ≤ roundEven m₂ := by
  rcases lt_or_eq_of_le (Int.floor_mono h) with hlt | heq
  · exact le_trans (roundEven_le_floor_add_one m₁) (le_trans hlt (floor_le_roundEven m₂))
  · unfold roundEven
    rw [heq]
    split_ifs <;> first | omega | (exfalso; linarith)

/-- An integer rounds to itself. -/
theorem roundEven_intCast (n : ℤ) : roundEven (n : ℚ) = n := by
  unfold roundEven
  simp

/-- Powers of two are positive. -/
theorem two_zpow_pos (k : ℤ) : (0 : ℚ) < 2 ^ k := zpow_pos (by norm_num) k

/-- A power of two is an integer multiple of every smaller power of two. -/
theorem two_zpow_eq_int_mul (k q : ℤ) (h : q ≤ k) :
    ∃ N : ℤ, (2 : ℚ) ^ k = (N : ℚ) * 2 ^ q := by
  refine ⟨2 ^ (k - q).toNat, ?_⟩
  have h1 : ((k - q).toNat : ℤ) = k - q := Int.toNat_of_nonneg (by omega)
  have h2 : (2 : ℚ) ^ (k - q) = ((2 ^ (k - q).toNat : ℤ) : ℚ) := by
    rw [← h1]
    push_cast
    rw [zpow_natCast, Int.toNat_natCast]
  rw [← h2, ← zpow_add₀ (by norm_num : (2 : ℚ) ≠ 0)]
  congr 1
  omega

/-- A grid point at least `x` is at least the rounding of `x`. -/
theorem roundGrid_le_of_le (x : ℚ) (N : ℤ) (h : x ≤ (N : ℚ) * 2 ^ ulpExp x) :
    roundGrid x ≤ (N : ℚ) * 2 ^ ulpExp x := by
  unfold roundGrid
  apply mul_le_mul_of_nonneg_right _ (two_zpow_pos _).le
  exact Int.cast_le.2 (roundEven_le_of_le _ N ((div_le_iff₀ (two_zpow_pos _)).2 h))

/-- A grid point at most `x` is at most the rounding of `x`. -/
theorem le_roundGrid_of_le (x : ℚ) (N : ℤ) (h : (N : ℚ) * 2 ^ ulpExp x ≤ x) :
    (N : ℚ) * 2 ^ ulpExp x ≤ roundGrid x := by
  unfold roundGrid
  apply mul_le_mul_of_nonneg_right _ (two_zpow_pos _).le
  exact Int.cast_le.2 (le_roundEven_of_le _ N ((le_div_iff₀ (two_zpow_pos _)).2 h))

/-- Lower bound of the binade of `x`. -/
theorem zpow_log_le_abs (x : ℚ) (hx : x ≠ 0) : (2 : ℚ) ^ Int.log 2 |x| ≤ |x| := by
  have := Int.zpow_log_le_self (b := 2) (r := |x|) (by norm_num) (abs_pos.2 hx)
  simpa using this

/-- Upper bound of the binade of `x`. -/
theorem abs_lt_zpow_log_succ (x : ℚ) : |x| < (2 : ℚ) ^ (Int.log 2 |x| + 1) := by
  have := Int.lt_zpow_succ_log_self (b := 2) (by norm_num) |x|
  simpa using this

/-- Rounding is monotone on numbers with the same spacing. -/
theorem roundGrid_mono_same (x y : ℚ) (h : x ≤ y) (hq : ulpExp x = ulpExp y) :
    roundGrid x ≤ roundGrid y := by
  unfold roundGrid
  rw [hq]
  apply mul_le_mul_of_nonneg_right _ (two_zpow_pos _).le
  exact Int.cast_le.2 (roundEven_mono _ _ (div_le_div_of_nonneg_right h (two_zpow_pos _).le))

/-- Rounding to the binary64 grid is monotone. -/
theorem roundGrid_mono (x y : ℚ) (h : x ≤ y) : roundGrid x ≤ roundGrid y := by
  by_cases hx : x ≤ 0
  · by_cases hy : 0 ≤ y
    · have h1 := roundGrid_le_of_le x 0 (by simpa using hx)
      have h2 := le_roundGrid_of_le y 0 (by simpa using hy)
      simp only [Int.cast_zero, zero_mul] at h1 h2
      exact le_trans h1 h2
    · have hy0 : y < 0 := not_le.1 hy
      have hx0 : x < 0 := lt_of_le_of_lt h hy0
      have habs : |y| ≤ |x| := by
        rw [abs_of_neg hy0, abs_of_neg hx0]; linarith
      have hlog : Int.log 2 |y| ≤ Int.log 2 |x| :=
        Int.log_mono_right (abs_pos.2 hy0.ne) habs
      rcases eq_or_lt_of_le (show ulpExp y ≤ ulpExp x by unfold ulpExp; omega) with heq | hlt
      · exact roundGrid_mono_same x y h heq.symm
      · have he : Int.log 2 |y| + 1 ≤ Int.log 2 |x| ∧ -1022 < Int.log 2 |x| := by
          unfold ulpExp at hlt; omega
        have hxB : x ≤ -(2 : ℚ) ^ Int.log 2 |x| := by
          have := zpow_log_le_abs x hx0.ne
          have hax : |x| = -x := abs_of_neg hx0
          linarith
        have hyB : -(2 : ℚ) ^ Int.log 2 |x| ≤ y := by
          have h1 := abs_lt_zpow_log_succ y
          have h2 : (2 : ℚ) ^ (Int.log 2 |y| + 1) ≤ 2 ^ Int.log 2 |x| :=
            zpow_le_zpow_right₀ (by norm_num) he.1
          have hay : |y| = -y := abs_of_neg hy0
          linarith
        obtain ⟨Nx, hNx⟩ := two_zpow_eq_int_mul (Int.log 2 |x|) (ulpExp x)
          (by unfold ulpExp; omega)
        obtain ⟨Ny, hNy⟩ := two_zpow_eq_int_mul (Int.log 2 |x|) (ulpExp y)
          (by unfold ulpExp at hlt ⊢; omega)
        have h1 := roundGrid_le_of_le x (-Nx) (by push_cast; rw [neg_mul, ← hNx]; exact hxB)
        have h2 := le_roundGrid_of_le y (-Ny) (by push_cast; rw [neg_mul, ← hNy]; exact hyB)
        push_cast at h1 h2
        rw [neg_mul, ← hNx] at h1
        rw [neg_mul, ← hNy] at h2
        exact le_trans h1 h2
  · have hx0 : 0 < x := not_le.1 hx
    have hy0 : 0 < y := lt_of_lt_of_le hx0 h
    have habs : |x| ≤ |y| := by
      rw [abs_of_pos hy0, abs_of_pos hx0]; exact h
    have hlog : Int.log 2 |x| ≤ Int.log 2 |y| :=
      Int.log_mono_right (abs_pos.2 hx0.ne') habs
    rcases eq_or_lt_of_le (show ulpExp x ≤ ulpExp y by unfold ulpExp; omega) with heq | hlt
    · exact roundGrid_mono_same x y h heq
    · have he : Int.log 2 |x| + 1 ≤ Int.log 2 |y| ∧ -1022 < Int.log 2 |y| := by
        unfold ulpExp at hlt; omega
      have hxB : x ≤ (2 : ℚ) ^ Int.log 2 |y| := by
        have h1 := abs_lt_zpow_log_succ x
        have h2 : (2 : ℚ) ^ (Int.log 2 |x| + 1) ≤ 2 ^ Int.log 2 |y| :=
          zpow_le_zpow_right₀ (by norm_num) he.1
        have hax : |x| = x := abs_of_pos hx0
        linarith
      have hyB : (2 : ℚ) ^ Int.log 2 |y| ≤ y := by
        have := zpow_log_le_abs y hy0.ne'
        have hay : |y| = y := abs_of_pos hy0
        linarith
      obtain ⟨Nx, hNx⟩ := two_zpow_eq_int_mul (Int.log 2 |y|) (ulpExp x)
        (by unfold ulpExp at hlt ⊢; omega)
      obtain ⟨Ny, hNy⟩ := two_zpow_eq_int_mul (Int.log 2 |y|) (ulpExp y)
        (by unfold ulpExp; omega)
      have h1 := roundGrid_le_of_le x Nx (by rw [← hNx]; exact hxB)
      have h2 := le_roundGrid_of_le y Ny (by rw [← hNy]; exact hyB)
      rw [← hNx] at h1
      rw [← hNy] at h2
      exact le_trans h1 h2

/-- Rounding a rational never gives `NaN`. -/
theorem round64_ne_nan (x : ℚ) : round64 x ≠ JsNumber.nan := by
  unfold round64
  split_ifs <;> simp

/-- Rounding to binary64 is monotone, infinities included. -/
theorem round64_below (x y : ℚ) (h : x ≤ y) : (round64 x).Below (round64 y) := by
  have hg := roundGrid_mono x y h
  have hM : (0 : ℚ) < 2 ^ (1024 : ℕ) := by positivity
  unfold round64
  generalize (2 : ℚ) ^ (1024 : ℕ) = M at hM ⊢
  split_ifs <;> simp only [JsNumber.Below] <;> first | trivial | exact hg | (exfalso; linarith)

/-- A non-negative exact result rounds to a non-negative number or `Infinity`. -/
theorem round64_nonNeg (x : ℚ) (h : 0 ≤ x) : (round64 x).NonNeg := by
  have h0 := le_roundGrid_of_le x 0 (by simpa using h)
  simp only [Int.cast_zero, zero_mul] at h0
  have hM : (0 : ℚ) < 2 ^ (1024 : ℕ) := by positivity
  unfold round64
  generalize (2 : ℚ) ^ (1024 : ℕ) = M at hM ⊢
  split_ifs with h1 h2
  · exact Or.inl rfl
  · exfalso
    linarith
  · exact Or.inr ⟨_, h0, rfl⟩

/-- The sum of two non-negative numbers is non-negative. -/
theorem add_nonNeg (a b : JsNumber) (ha : a.NonNeg) (hb : b.NonNeg) : (a.add b).NonNeg := by
  rcases ha with ha | ⟨x, hx, ha⟩ <;> rcases hb with hb | ⟨y, hy, hb⟩ <;> subst ha <;> subst hb
  · exact Or.inl rfl
  · exact Or.inl rfl
  · exact Or.inl rfl
  · exact round64_nonNeg (x + y) (add_nonneg hx hy)

/-- Every rounded value is below `Infinity`. -/
theorem round64_below_posInf (x : ℚ) : (round64 x).Below JsNumber.posInf := by
  unfold round64
  generalize (2 : ℚ) ^ (1024 : ℕ) = M
  split_ifs <;> simp only [JsNumber.Below]

/-- Addition is monotone for `Below`. -/
theorem add_below (a b c d : JsNumber) (hab : a.Below b) (hcd : c.Below d) :
    (a.add c).Below (b.add d) := by
  cases a <;> cases b <;> cases c <;> cases d <;>
    simp only [JsNumber.Below, JsNumber.add] at hab hcd ⊢ <;>
    first
      | trivial
      | exact round64_below _ _ (add_le_add hab hcd)
      | exact round64_below_posInf _

/-- A threshold exceeded by the lower number is exceeded by the upper one. -/
theorem gt_of_below (a b : JsNumber) (t : ℚ) (hab : a.Below b) (h : a.gt t = true) :
    b.gt t = true := by
  cases a <;> cases b <;> simp only [JsNumber.Below, JsNumber.gt] at hab h ⊢ <;>
    first
      | trivial
      | cases h
      | exact hab.elim
      | (rw [decide_eq_true_eq] at h ⊢; exact lt_of_lt_of_le h hab)

/-- For a number other than `NaN`, `<=` is the negation of `>`. -/
theorem le_iff_not_gt (s : JsNumber) (t : ℚ) (h : s ≠ JsNumber.nan) :
    s.le t = true ↔ ¬ s.gt t = true := by
  cases s <;> simp [JsNumber.le, JsNumber.gt] at h ⊢

/-- The binade of `x` from its two bounds. -/
theorem log_abs_eq (x : ℚ) (e : ℤ) (h1 : (2 : ℚ) ^ e ≤ |x|) (h2 : |x| < (2 : ℚ) ^ (e + 1)) :
    Int.log 2 |x| = e := by
  have hpos : 0 < |x| := lt_of_lt_of_le (two_zpow_pos e) h1
  have ha := (Int.zpow_le_iff_le_log (b := 2) (by norm_num) (x := e) hpos).1 (by simpa using h1)
  have hb := (Int.lt_zpow_iff_log_lt (b := 2) (by norm_num) (x := e + 1) hpos).1
    (by simpa using h2)
  omega

/-- A number closer than one half to an integer rounds to it. -/
theorem roundEven_eq_of_abs_lt (m : ℚ) (n : ℤ) (h : |m - n| < 1 / 2) : roundEven m = n := by
  rw [abs_lt] at h
  by_cases hm : (n : ℚ) ≤ m
  · have hf : ⌊m⌋ = n := Int.floor_eq_iff.2 ⟨hm, by linarith⟩
    unfold roundEven
    rw [hf, if_pos (by linarith)]
  · have hf : ⌊m⌋ = n - 1 := Int.floor_eq_iff.2 ⟨by push_cast; linarith, by push_cast; linarith⟩
    unfold roundEven
    rw [hf, if_neg (by push_cast; linarith), if_pos (by push_cast; linarith)]
    omega

/-- Evaluation of `round64` at a positive `x`: the grid point `y` of the binade of `x` that is closer than half a spacing. -/
theorem round64_eval (x y : ℚ) (e n : ℤ) (h1 : (2 : ℚ) ^ e ≤ x) (h2 : x < (2 : ℚ) ^ (e + 1))
    (hy : y = (n : ℚ) * 2 ^ (max e (-1022) - 52))
    (hlo : y - 2 ^ (max e (-1022) - 52) / 2 < x) (hhi : x < y + 2 ^ (max e (-1022) - 52) / 2)
    (hfin : y < 2 ^ (1024 : ℕ)) : round64 x = JsNumber.finite y := by
  have hx0 : 0 < x := lt_of_lt_of_le (two_zpow_pos e) h1
  have hq : ulpExp x = max e (-1022) - 52 := by
    unfold ulpExp
    rw [log_abs_eq x e (by rw [abs_of_pos hx0]; exact h1) (by rw [abs_of_pos hx0]; exact h2)]
  have hpos := two_zpow_pos (max e (-1022) - 52)
  have hr : roundEven (x / 2 ^ (max e (-1022) - 52)) = n := by
    apply roundEven_eq_of_abs_lt
    have : x / 2 ^ (max e (-1022) - 52) - (n : ℚ) = (x - y) / 2 ^ (max e (-1022) - 52) := by
      rw [hy]; field_simp; ring
    rw [this, abs_div, abs_of_pos hpos, div_lt_iff₀ hpos, abs_lt]
    constructor <;> linarith
  have hg : roundGrid x = y := by
    unfold roundGrid
    rw [hq, hr, hy]
  have hy0 : 0 ≤ y := by
    have := le_roundGrid_of_le x 0 (by simpa using hx0.le)
    simp only [Int.cast_zero, zero_mul] at this
    rw [hg] at this
    exact this
  have hM : (0 : ℚ) < 2 ^ (1024 : ℕ) := by positivity
  unfold round64
  rw [hg]
  generalize (2 : ℚ) ^ (1024 : ℕ) = M at hM hfin ⊢
  rw [if_neg (by linarith), if_neg (by linarith)]

/-- Zero is a binary64 value. -/
theorem round64_zero : round64 0 = JsNumber.finite 0 := by
  have hg : roundGrid 0 = 0 := by
    unfold roundGrid
    simp [roundEven]
  have hM : (0 : ℚ) < 2 ^ (1024 : ℕ) := by positivity
  unfold round64
  rw [hg]
  generalize (2 : ℚ) ^ (1024 : ℕ) = M at hM ⊢
  rw [if_neg (by linarith), if_neg (by linarith)]

/-- A natural number below `2 ^ 53` is a binary64 value. -/
theorem round64_natCast (n e : ℕ) (h1 : 2 ^ e ≤ n) (h2 : n < 2 ^ (e + 1)) (he : e ≤ 52) :
    round64 (n : ℚ) = JsNumber.finite n := by
  have hq : max (e : ℤ) (-1022) - 52 = -((52 - e : ℕ) : ℤ) := by omega
  have hpos := two_zpow_pos (max (e : ℤ) (-1022) - 52)
  have hpow : (2 : ℚ) ^ (52 - e) ≠ 0 := by positivity
  apply round64_eval (n : ℚ) (n : ℚ) (e : ℤ) ((n * 2 ^ (52 - e) : ℕ) : ℤ)
  · rw [zpow_natCast]; exact_mod_cast h1
  · have : ((e : ℤ) + 1) = ((e + 1 : ℕ) : ℤ) := by push_cast; rfl
    rw [this, zpow_natCast]; exact_mod_cast h2
  · rw [hq, zpow_neg, zpow_natCast]
    push_cast
    field_simp
  · linarith
  · linarith
  · have ha : (n : ℚ) < (2 : ℚ) ^ (e + 1) := by exact_mod_cast h2
    have hb : (2 : ℚ) ^ (e + 1) ≤ 2 ^ (1024 : ℕ) := pow_le_pow_right₀ (by norm_num) (by omega)
    exact lt_of_lt_of_le ha hb

/-! ## Rank classification: theorems -/

/-- The name of the rank, by cases on the computed score, highest band first. -/
theorem calculateRank_name (stats : PlayerStat) :
    (calculateRank stats).name =
      if (score stats).gt 1000 then "Mythic"
      else if (score stats).gt 750 then "Legendary"
      else if (score stats).gt 500 then "Epic"
      else if (score stats).gt 300 then "Rare"
      else if (score stats).gt 150 then "Uncommon"
      else "Common" := by
  unfold calculateRank
  split_ifs <;> rfl

/-- The score of a record without negative fields is a non-negative number or `Infinity`. -/
theorem score_nonNeg (stats : PlayerStat) (hw : 0 ≤ stats.wins) (hk : 0 ≤ stats.kills)
    (hr : 0 ≤ stats.winRate) (hd : 0 ≤ stats.kd) : (score stats).NonNeg := by
  unfold score mul64
  refine add_nonNeg _ _ (add_nonNeg _ _ (add_nonNeg _ _ ?_ ?_) ?_) ?_
  · exact round64_nonNeg _ (mul_nonneg hw (by norm_num))
  · exact round64_nonNeg _ (mul_nonneg hk (by norm_num))
  · exact round64_nonNeg _ (mul_nonneg hr (by norm_num))
  · exact round64_nonNeg _ (mul_nonneg hd (by norm_num))

/-- A non-negative number is not `NaN`. -/
theorem ne_nan_of_nonNeg (s : JsNumber) (h : s.NonNeg) : s ≠ JsNumber.nan := by
  rcases h with h | ⟨q, _, h⟩ <;> rw [h] <;> simp

/-- The sum of two finite numbers is the rounded exact sum. -/
theorem finite_add_finite (x y : ℚ) :
    (JsNumber.finite x).add (JsNumber.finite y) = round64 (x + y) := rfl

/-- The record `ninja` scores 830: every product and sum is exact. -/
theorem score_ninja : score ninja = JsNumber.finite 830 := by
  have h500 : round64 500 = JsNumber.finite 500 := by
    simpa using round64_natCast 500 8 (by norm_num) (by norm_num) (by norm_num)
  have h250 : round64 250 = JsNumber.finite 250 := by
    simpa using round64_natCast 250 7 (by norm_num) (by norm_num) (by norm_num)
  have h60 : round64 60 = JsNumber.finite 60 := by
    simpa using round64_natCast 60 5 (by norm_num) (by norm_num) (by norm_num)
  have h20 : round64 20 = JsNumber.finite 20 := by
    simpa using round64_natCast 20 4 (by norm_num) (by norm_num) (by norm_num)
  have h750 : round64 750 = JsNumber.finite 750 := by
    simpa using round64_natCast 750 9 (by norm_num) (by norm_num) (by norm_num)
  have h810 : round64 810 = JsNumber.finite 810 := by
    simpa using round64_natCast 810 9 (by norm_num) (by norm_num) (by norm_num)
  have h830 : round64 830 = JsNumber.finite 830 := by
    simpa using round64_natCast 830 9 (by norm_num) (by norm_num) (by norm_num)
  have e1 : mul64 ninja.wins 5 = JsNumber.finite 500 := by
    unfold mul64 ninja; norm_num; exact h500
  have e2 : mul64 ninja.kills 0.5 = JsNumber.finite 250 := by
    unfold mul64 ninja; norm_num; exact h250
  have e3 : mul64 ninja.winRate 2 = JsNumber.finite 60 := by
    unfold mul64 ninja; norm_num; exact h60
  have e4 : mul64 ninja.kd 10 = JsNumber.finite 20 := by
    unfold mul64 ninja; norm_num; exact h20
  unfold score
  rw [e1, e2, e3, e4, finite_add_finite, show (500 : ℚ) + 250 = 750 by norm_num, h750,
    finite_add_finite, show (750 : ℚ) + 60 = 810 by norm_num, h810, finite_add_finite,
    show (810 : ℚ) + 20 = 830 by norm_num, h830]

/-- The record `nearThousand` scores exactly 1000: the product `kd * 10` rounds down to
94, and every other product and sum is exact. -/
theorem score_nearThousand : score nearThousand = JsNumber.finite 1000 := by
  have h205 : round64 205 = JsNumber.finite 205 := by
    simpa using round64_natCast 205 7 (by norm_num) (by norm_num) (by norm_num)
  have h533 : round64 533 = JsNumber.finite 533 := by
    simpa using round64_natCast 533 9 (by norm_num) (by norm_num) (by norm_num)
  have h168 : round64 168 = JsNumber.finite 168 := by
    simpa using round64_natCast 168 7 (by norm_num) (by norm_num) (by norm_num)
  have h94 : round64 (5291729562160333 / 562949953421312 * 10) = JsNumber.finite 94 :=
    round64_eval _ 94 6 (94 * 2 ^ 46) (by norm_num) (by norm_num) (by norm_num)
      (by norm_num) (by norm_num) (by norm_num)
  have h738 : round64 738 = JsNumber.finite 738 := by
    simpa using round64_natCast 738 9 (by norm_num) (by norm_num) (by norm_num)
  have h906 : round64 906 = JsNumber.finite 906 := by
    simpa using round64_natCast 906 9 (by norm_num) (by norm_num) (by norm_num)
  have h1000 : round64 1000 = JsNumber.finite 1000 := by
    simpa using round64_natCast 1000 9 (by norm_num) (by norm_num) (by norm_num)
  have e1 : mul64 nearThousand.wins 5 = JsNumber.finite 205 := by
    unfold mul64 nearThousand; norm_num; exact h205
  have e2 : mul64 nearThousand.kills 0.5 = JsNumber.finite 533 := by
    unfold mul64 nearThousand; norm_num; exact h533
  have e3 : mul64 nearThousand.winRate 2 = JsNumber.finite 168 := by
    unfold mul64 nearThousand; norm_num; exact h168
  have e4 : mul64 nearThousand.kd 10 = JsNumber.finite 94 := by
    unfold mul64 nearThousand; exact h94
  unfold score
  rw [e1, e2, e3, e4, finite_add_finite, show (205 : ℚ) + 533 = 738 by norm_num, h738,
    finite_add_finite, show (738 : ℚ) + 168 = 906 by norm_num, h906, finite_add_finite,
    show (906 : ℚ) + 94 = 1000 by norm_num, h1000]

/-- The comparison `>` on a finite number. -/
theorem finite_gt (q t : ℚ) : (JsNumber.finite q).gt t = decide (t < q) := rfl

/-- The comparison `<=` on a finite number. -/
theorem finite_le (q t : ℚ) : (JsNumber.finite q).le t = decide (q ≤ t) := rfl

/-- A threshold exceeded is exceeded by every smaller threshold. -/
theorem gt_of_gt_of_le (s : JsNumber) (t₁ t₂ : ℚ) (h : t₁ ≤ t₂) (hs : s.gt t₂ = true) :
    s.gt t₁ = true := by
  cases s with
  | nan => exact hs
  | negInf => exact hs
  | finite q =>
    simp only [JsNumber.gt, decide_eq_true_eq] at hs ⊢
    exact lt_of_le_of_lt h hs
  | posInf => rfl

/-- The strict descending bands, for a score that is not `NaN`. -/
theorem bands_of_ne_nan (s : JsNumber) (hs : s ≠ JsNumber.nan) (name : String)
    (hname : name =
      if s.gt 1000 then "Mythic"
      else if s.gt 750 then "Legendary"
      else if s.gt 500 then "Epic"
      else if s.gt 300 then "Rare"
      else if s.gt 150 then "Uncommon"
      else "Common") :
    name ∈ tierNames ∧
    (name = "Mythic" ↔ s.gt 1000 = true) ∧
    (name = "Legendary" ↔ s.gt 750 = true ∧ s.le 1000 = true) ∧
    (name = "Epic" ↔ s.gt 500 = true ∧ s.le 750 = true) ∧
    (name = "Rare" ↔ s.gt 300 = true ∧ s.le 500 = true) ∧
    (name = "Uncommon" ↔ s.gt 150 = true ∧ s.le 300 = true) ∧
    (name = "Common" ↔ s.le 150 = true) := by
  subst hname
  cases s with
  | nan => exact absurd rfl hs
  | negInf => decide
  | posInf => decide
  | finite q =>
    simp only [finite_gt, finite_le, decide_eq_true_eq]
    split_ifs with h1 h2 h3 h4 h5
    all_goals
      refine ⟨by decide, ?_, ?_, ?_, ?_, ?_, ?_⟩ <;>
      first
        | exact ⟨fun _ => by first | assumption | constructor <;> linarith | linarith,
                 fun _ => rfl⟩
        | exact ⟨fun h => absurd h (by decide), fun h => absurd h (by intro h; linarith)⟩

/-- C1, as stated, fails on the record `{wins: 41, kills: 1066, winRate: 84, kd: 9.4}`:
its fields are not negative and its `kd` is the binary64 value written `9.4`; in exact
arithmetic `wins*5 + kills*0.5 + winRate*2 + kd*10` is above 1000, the Mythic band, but
the code computes exactly 1000 and returns Legendary. -/
theorem calculateRank_not_exact :
    round64 (47 / 5) = JsNumber.finite nearThousand.kd ∧
    0 ≤ nearThousand.wins ∧ 0 ≤ nearThousand.kills ∧ 0 ≤ nearThousand.winRate ∧
    0 ≤ nearThousand.kd ∧
    1000 < nearThousand.wins * 5 + nearThousand.kills * 0.5 + nearThousand.winRate * 2 +
      nearThousand.kd * 10 ∧
    score nearThousand = JsNumber.finite 1000 ∧
    (calculateRank nearThousand).name = "Legendary" ∧
    (calculateRank nearThousand).name ≠ "Mythic" := by
  have hname : (calculateRank nearThousand).name = "Legendary" := by
    rw [calculateRank_name, score_nearThousand]
    simp only [finite_gt]
    norm_num
  refine ⟨?_, ?_, ?_, ?_, ?_, ?_, score_nearThousand, hname, ?_⟩
  · exact round64_eval _ _ 3 5291729562160333 (by norm_num) (by norm_num)
      (by norm_num [nearThousand]) (by norm_num [nearThousand]) (by norm_num [nearThousand])
      (by norm_num [nearThousand])
  · norm_num [nearThousand]
  · norm_num [nearThousand]
  · norm_num [nearThousand]
  · norm_num [nearThousand]
  · norm_num [nearThousand]
  · rw [hname]; decide

/-- C1, amended: for every stat record with non-negative fields, `calculateRank` computes
`score = wins*5 + kills*0.5 + winRate*2 + kd*10` in binary64 arithmetic, every product and
sum rounded to nearest; the score is a non-negative number or `Infinity`, and it is the
exact value whenever every product and partial sum is a binary64 value. The tier returned
is one of the six, by strict descending bands of the computed score: Mythic iff
`score > 1000`, Legendary iff `750 < score ≤ 1000`, Epic iff `500 < score ≤ 750`, Rare iff
`300 < score ≤ 500`, Uncommon iff `150 < score ≤ 300`, Common iff `score ≤ 150`. A computed
score of exactly 1000 is Legendary, and `{kills:500, wins:100, kd:2, winRate:30}` scores
830 and is Legendary. -/
theorem calculateRank_bands (stats : PlayerStat) (hw : 0 ≤ stats.wins) (hk : 0 ≤ stats.kills)
    (hr : 0 ≤ stats.winRate) (hd : 0 ≤ stats.kd) :
    score stats =
      (((round64 (stats.wins * 5)).add (round64 (stats.kills * (1 / 2)))).add
        (round64 (stats.winRate * 2))).add (round64 (stats.kd * 10)) ∧
    (score stats).NonNeg ∧
    (IsDouble (stats.wins * 5) → IsDouble (stats.kills * (1 / 2)) →
      IsDouble (stats.winRate * 2) → IsDouble (stats.kd * 10) →
      IsDouble (stats.wins * 5 + stats.kills * (1 / 2)) →
      IsDouble (stats.wins * 5 + stats.kills * (1 / 2) + stats.winRate * 2) →
      IsDouble (stats.wins * 5 + stats.kills * (1 / 2) + stats.winRate * 2 + stats.kd * 10) →
      score stats = JsNumber.finite
        (stats.wins * 5 + stats.kills * (1 / 2) + stats.winRate * 2 + stats.kd * 10)) ∧
    (calculateRank stats).name ∈ tierNames ∧
    ((calculateRank stats).name = "Mythic" ↔ (score stats).gt 1000 = true) ∧
    ((calculateRank stats).name = "Legendary" ↔
      (score stats).gt 750 = true ∧ (score stats).le 1000 = true) ∧
    ((calculateRank stats).name = "Epic" ↔
      (score stats).gt 500 = true ∧ (score stats).le 750 = true) ∧
    ((calculateRank stats).name = "Rare" ↔
      (score stats).gt 300 = true ∧ (score stats).le 500 = true) ∧
    ((calculateRank stats).name = "Uncommon" ↔
      (score stats).gt 150 = true ∧ (score stats).le 300 = true) ∧
    ((calculateRank stats).name = "Common" ↔ (score stats).le 150 = true) ∧
    tierNames.Nodup ∧
    (score stats = JsNumber.finite 1000 → (calculateRank stats).name = "Legendary") ∧
    score ninja = JsNumber.finite 830 ∧
    (calculateRank ninja).name = "Legendary" := by
  have hhalf : (0.5 : ℚ) = 1 / 2 := by norm_num
  have hdef : score stats =
      (((round64 (stats.wins * 5)).add (round64 (stats.kills * (1 / 2)))).add
        (round64 (stats.winRate * 2))).add (round64 (stats.kd * 10)) := by
    unfold score mul64
    rw [hhalf]
  have hnn := score_nonNeg stats hw hk hr hd
  have hb := bands_of_ne_nan (score stats) (ne_nan_of_nonNeg _ hnn) (calculateRank stats).name
    (calculateRank_name stats)
  refine ⟨hdef, hnn, ?_, hb.1, hb.2.1, hb.2.2.1, hb.2.2.2.1, hb.2.2.2.2.1, hb.2.2.2.2.2.1,
    hb.2.2.2.2.2.2, by decide, ?_, score_ninja, ?_⟩
  · intro h1 h2 h3 h4 h5 h6 h7
    unfold IsDouble at h1 h2 h3 h4 h5 h6 h7
    rw [hdef, h1, h2, h3, h4, finite_add_finite, h5, finite_add_finite, h6,
      finite_add_finite, h7]
  · intro h
    rw [calculateRank_name, h]
    simp only [finite_gt]
    norm_num
  · rw [calculateRank_name, score_ninja]
    simp only [finite_gt]
    norm_num

/-- Witness for C1: the record `ninja` has no negative field; its score is not negative
and it is Legendary exactly because its score is above 750 and at most 1000. -/
theorem calculateRank_bands_witness :
    0 ≤ ninja.wins ∧ 0 ≤ ninja.kills ∧ 0 ≤ ninja.winRate ∧ 0 ≤ ninja.kd ∧
    (score ninja).NonNeg ∧
    ((calculateRank ninja).name = "Legendary" ↔
      (score ninja).gt 750 = true ∧ (score ninja).le 1000 = true) :=
  have h := calculateRank_bands ninja (by norm_num [ninja]) (by norm_num [ninja])
    (by norm_num [ninja]) (by norm_num [ninja])
  ⟨by norm_num [ninja], by norm_num [ninja], by norm_num [ninja], by norm_num [ninja],
    h.2.1, h.2.2.2.2.2.1⟩

/-! ## Leaderboard view: theorems -/

/-- The sort returns a permutation of its input. -/
theorem sort_perm {α : Type} (compareFn : α → α → ℚ) (xs : List α) :
    List.Perm (sort compareFn xs) xs :=
  List.perm_insertionSort _ xs

/-- When the comparator orders by a numeric key, the output is sorted by that key. -/
theorem sort_pairwise {α : Type} (compareFn : α → α → ℚ) (key : α → ℚ)
    (h : ∀ a b, compareFn a b ≤ 0 ↔ key a ≤ key b) (xs : List α) :
    List.Pairwise (fun a b => key a ≤ key b) (sort compareFn xs) := by
  haveI : IsTotal α (fun x y => compareFn x y ≤ 0) :=
    ⟨fun a b => by simp only [h]; exact le_total _ _⟩
  haveI : IsTrans α (fun x y => compareFn x y ≤ 0) :=
    ⟨fun a b c hab hbc => by simp only [h] at *; exact le_trans hab hbc⟩
  have hs := List.sorted_insertionSort (fun x y => compareFn x y ≤ 0) xs
  exact List.Pairwise.imp (fun hab => (h _ _).1 hab) hs

/-- Inserting into the sorted tail puts the new element in front of every element of its
own class, so a filter on that class sees it first. -/
theorem filter_orderedInsert {α : Type} (compareFn : α → α → ℚ) (p : α → Bool)
    (hp : ∀ a b, p a = true → p b = true → compareFn a b ≤ 0) (a : α) (s : List α) :
    (List.orderedInsert (fun x y => compareFn x y ≤ 0) a s).filter p =
      (a :: s).filter p := by
  induction s with
  | nil => simp
  | cons b s ih =>
    by_cases hab : compareFn a b ≤ 0
    · simp [List.orderedInsert, hab]
    · have hne : ¬ (p a = true ∧ p b = true) := fun hh => hab (hp a b hh.1 hh.2)
      simp only [List.orderedInsert, hab, if_false]
      by_cases hpa : p a = true
      · have hpb : p b = false := by
          cases hb : p b with
          | false => rfl
          | true => exact absurd ⟨hpa, hb⟩ hne
        simp [List.filter_cons, hpb, ih, hpa]
      · have hpa2 : p a = false := by simpa using hpa
        simp only [List.filter_cons, hpa2] at ih ⊢
        simp [ih]

/-- Stability of the sort: the entries of one comparator class keep their input order. -/
theorem sort_filter {α : Type} (compareFn : α → α → ℚ) (p : α → Bool)
    (hp : ∀ a b, p a = true → p b = true → compareFn a b ≤ 0) (xs : List α) :
    (sort compareFn xs).filter p = xs.filter p := by
  induction xs with
  | nil => rfl
  | cons a l ih =>
    have h := filter_orderedInsert compareFn p hp a (sort compareFn l)
    unfold sort at h ih ⊢
    rw [List.insertionSort, h, List.filter_cons, List.filter_cons, ih]

/-- The comparator of `sortedFriends` in ascending direction orders by the key. -/
theorem compareFriends_asc (key : SortKey) (a b : PlayerStat) :
    compareFriends { key := key, direction := Direction.asc } a b ≤ 0 ↔
      a.get key ≤ b.get key := by
  unfold compareFriends
  simp only [if_true]
  split_ifs with h1 h2
  · constructor
    · intro _; exact le_of_lt h1
    · intro _; norm_num
  · constructor
    · intro h; norm_num at h
    · intro h; exact absurd h (not_le.mpr h2)
  · constructor
    · intro _; exact not_lt.mp h2
    · intro _; exact le_refl _

/-- The comparator of `sortedFriends` in descending direction orders by the key, reversed. -/
theorem compareFriends_desc (key : SortKey) (a b : PlayerStat) :
    compareFriends { key := key, direction := Direction.desc } a b ≤ 0 ↔
      b.get key ≤ a.get key := by
  unfold compareFriends
  have hd : ¬ (Direction.desc = Direction.asc) := by decide
  simp only [hd, if_false]
  split_ifs with h1 h2
  · constructor
    · intro h; norm_num at h
    · intro h; exact absurd h (not_le.mpr h1)
  · constructor
    · intro _; exact le_of_lt h2
    · intro _; norm_num
  · constructor
    · intro _; exact not_lt.mp h1
    · intro _; exact le_refl _

/-- Entries with equal keys compare as `0`, in either direction. -/
theorem compareFriends_eq (sortConfig : SortConfig) (a b : PlayerStat)
    (h : a.get sortConfig.key = b.get sortConfig.key) :
    compareFriends sortConfig a b = 0 := by
  unfold compareFriends
  simp [h]

/-- Two lists sorted by a numeric key that agree, for every key value, on the sub-sequence
of entries with that value are equal. -/
theorem eq_of_sorted_of_filter_eq {α : Type} (key : α → ℚ) :
    ∀ ys zs : List α,
      List.Pairwise (fun a b => key a ≤ key b) ys →
      List.Pairwise (fun a b => key a ≤ key b) zs →
      (∀ v : ℚ, ys.filter (fun e => decide (key e = v)) =
        zs.filter (fun e => decide (key e = v))) →
      ys = zs := by
  intro ys
  induction ys with
  | nil =>
    intro zs _ _ h
    cases zs with
    | nil => rfl
    | cons z zs =>
      have h1 := h (key z)
      simp at h1
  | cons y ys ih =>
    intro zs hy hz h
    cases zs with
    | nil =>
      have h1 := h (key y)
      simp at h1
    | cons z zs =>
      have hy2 := List.pairwise_cons.1 hy
      have hz2 := List.pairwise_cons.1 hz
      have hzmem : z ∈ y :: ys := by
        have hm : z ∈ (z :: zs).filter (fun e => decide (key e = key z)) := by simp
        rw [← h (key z)] at hm
        exact (List.mem_filter.1 hm).1
      have hymem : y ∈ z :: zs := by
        have hm : y ∈ (y :: ys).filter (fun e => decide (key e = key y)) := by simp
        rw [h (key y)] at hm
        exact (List.mem_filter.1 hm).1
      have hyz : key y ≤ key z := by
        rcases List.mem_cons.1 hzmem with he | he
        · rw [he]
        · exact hy2.1 z he
      have hzy : key z ≤ key y := by
        rcases List.mem_cons.1 hymem with he | he
        · rw [he]
        · exact hz2.1 y he
      have hk : key z = key y := le_antisymm hzy hyz
      have h1 := h (key y)
      simp only [List.filter_cons, hk, decide_True, if_true] at h1
      have hhead : y = z := (List.cons.inj h1).1
      subst hhead
      have htail : ys = zs := by
        apply ih zs hy2.2 hz2.2
        intro v
        have hv := h v
        by_cases hkv : key y = v
        · simp only [List.filter_cons, hkv, decide_True, if_true] at hv
          exact (List.cons.inj hv).2
        · simpa only [List.filter_cons, hkv, decide_False, Bool.false_eq_true, if_false]
            using hv
      rw [htail]

/-- The embedding of `Array.prototype.sort` does not depend on the algorithm: any list that
is sorted by the comparator's key and keeps the input order inside each key class is the
list `sort` returns. -/
theorem sort_unique {α : Type} (compareFn : α → α → ℚ) (key : α → ℚ)
    (h : ∀ a b, compareFn a b ≤ 0 ↔ key a ≤ key b) (xs ys : List α)
    (hsorted : List.Pairwise (fun a b => key a ≤ key b) ys)
    (hstable : ∀ v : ℚ, ys.filter (fun e => decide (key e = v)) =
      xs.filter (fun e => decide (key e = v))) :
    ys = sort compareFn xs := by
  apply eq_of_sorted_of_filter_eq key ys (sort compareFn xs) hsorted
    (sort_pairwise compareFn key h xs)
  intro v
  rw [hstable v]
  symm
  apply sort_filter
  intro a b ha hb
  have ha2 : key a = v := by simpa using ha
  have hb2 : key b = v := by simpa using hb
  exact (h a b).2 (by rw [ha2, hb2])

/-- C2: for every roster and every sort key, `sortedFriends` is a permutation of the
roster whose key values are non-decreasing along the list for direction `asc` and
non-increasing for direction `desc`. -/
theorem sortedFriends_perm_sorted (friends : List PlayerStat) (key : SortKey) :
    List.Perm (sortedFriends friends { key := key, direction := Direction.asc }) friends ∧
    List.Pairwise (fun a b => a.get key ≤ b.get key)
      (sortedFriends friends { key := key, direction := Direction.asc }) ∧
    List.Perm (sortedFriends friends { key := key, direction := Direction.desc }) friends ∧
    List.Pairwise (fun a b => b.get key ≤ a.get key)
      (sortedFriends friends { key := key, direction := Direction.desc }) := by
  refine ⟨sort_perm _ _, ?_, sort_perm _ _, ?_⟩
  · exact sort_pairwise _ (fun a => a.get key) (compareFriends_asc key) friends
  · have h := sort_pairwise (compareFriends { key := key, direction := Direction.desc })
      (fun a => - a.get key)
      (fun a b => by rw [compareFriends_desc]; exact neg_le_neg_iff.symm) friends
    exact List.Pairwise.imp (fun hab => neg_le_neg_iff.mp hab) h

/-- C3: the leaderboard ordering is stable in both directions: for every roster, sort
directive and key value `v`, the entries whose sort key equals `v` appear in
`sortedFriends` in exactly the order they have in the roster. The roster with kills
10, 50, 50 sorted by kills descending is the two 50-entries in their original order,
then the 10-entry. -/
theorem sortedFriends_stable :
    (∀ (friends : List PlayerStat) (sortConfig : SortConfig) (v : ℚ),
      (sortedFriends friends sortConfig).filter (fun e => e.get sortConfig.key = v) =
        friends.filter (fun e => e.get sortConfig.key = v)) ∧
    sortedFriends
      [{ username := "a", level := 0, kills := 10, wins := 0, kd := 0, matchesPlayed := 0,
         winRate := 0 },
       { username := "b", level := 0, kills := 50, wins := 0, kd := 0, matchesPlayed := 0,
         winRate := 0 },
       { username := "c", level := 0, kills := 50, wins := 0, kd := 0, matchesPlayed := 0,
         winRate := 0 }]
      { key := SortKey.kills, direction := Direction.desc } =
      [{ username := "b", level := 0, kills := 50, wins := 0, kd := 0, matchesPlayed := 0,
         winRate := 0 },
       { username := "c", level := 0, kills := 50, wins := 0, kd := 0, matchesPlayed := 0,
         winRate := 0 },
       { username := "a", level := 0, kills := 10, wins := 0, kd := 0, matchesPlayed := 0,
         winRate := 0 }] := by
  constructor
  · intro friends sortConfig v
    apply sort_filter
    intro a b ha hb
    have ha2 : a.get sortConfig.key = v := by simpa using ha
    have hb2 : b.get sortConfig.key = v := by simpa using hb
    rw [compareFriends_eq sortConfig a b (ha2.trans hb2.symm)]
  · have hd : (Direction.desc = Direction.asc) = False := eq_false (by decide)
    norm_num [sortedFriends, sort, compareFriends, PlayerStat.get, List.insertionSort,
      List.orderedInsert, hd]

/-- The first element of a descending stable sort of a non-empty list is the earliest
entry with the maximum key. -/
theorem sort_head_isFirstMax (key : PlayerStat → ℚ) (compareFn : PlayerStat → PlayerStat → ℚ)
    (h : ∀ a b, compareFn a b ≤ 0 ↔ key b ≤ key a) (a : PlayerStat) (l : List PlayerStat) :
    ∃ e, (sort compareFn (a :: l))[0]? = some e ∧ IsFirstMax key (a :: l) e := by
  induction l generalizing a with
  | nil =>
    exact ⟨a, by simp [sort], [], [], by simp, by simp, by simp⟩
  | cons b l ih =>
    obtain ⟨e, he, before, after, hsplit, hlt, hle⟩ := ih b
    have hstep : sort compareFn (a :: b :: l) =
        List.orderedInsert (fun x y => compareFn x y ≤ 0) a (sort compareFn (b :: l)) := rfl
    cases hs : sort compareFn (b :: l) with
    | nil => rw [hs] at he; simp at he
    | cons e2 rest =>
      rw [hs] at he
      have hee : e2 = e := by simpa using he
      subst hee
      rw [hstep, hs]
      by_cases hc : compareFn a e2 ≤ 0
      · refine ⟨a, by simp [List.orderedInsert, hc], [], b :: l, by simp, by simp, ?_⟩
        intro x hx
        have hea : key e2 ≤ key a := (h a e2).1 hc
        rw [hsplit] at hx
        rcases List.mem_append.1 hx with hx1 | hx1
        · exact le_trans (le_of_lt (hlt x hx1)) hea
        · rcases List.mem_cons.1 hx1 with hx2 | hx2
          · rw [hx2]; exact hea
          · exact le_trans (hle x hx2) hea
      · refine ⟨e2, by simp [List.orderedInsert, hc], a :: before, after, ?_, ?_, hle⟩
        · rw [hsplit]; rfl
        · intro x hx
          rcases List.mem_cons.1 hx with hx1 | hx1
          · rw [hx1]
            exact lt_of_not_le (fun hh => hc ((h a e2).2 hh))
          · exact hlt x hx1

/-- C4: `getTopStats` returns `null` exactly when the roster is empty; on a non-empty
roster `topKills`, `topWins` and `topKD` are each a roster entry whose kills, wins and kd
respectively is the maximum over the roster, the earliest such entry in roster order,
which is the entry the stable descending sort by that metric places first. -/
theorem getTopStats_spec :
    (∀ friends : List PlayerStat, getTopStats friends = none ↔ friends = []) ∧
    (∀ (a : PlayerStat) (l : List PlayerStat), ∃ k w d,
      getTopStats (a :: l) = some { topKills := some k, topWins := some w, topKD := some d } ∧
      IsFirstMax PlayerStat.kills (a :: l) k ∧
      IsFirstMax PlayerStat.wins (a :: l) w ∧
      IsFirstMax PlayerStat.kd (a :: l) d ∧
      (sort (fun x y => y.kills - x.kills) (a :: l)).head? = some k ∧
      (sort (fun x y => y.wins - x.wins) (a :: l)).head? = some w ∧
      (sort (fun x y => y.kd - x.kd) (a :: l)).head? = some d) := by
  constructor
  · intro friends
    cases friends with
    | nil => simp [getTopStats]
    | cons a l => simp [getTopStats]
  · intro a l
    obtain ⟨k, hk, hk2⟩ := sort_head_isFirstMax PlayerStat.kills
      (fun x y => y.kills - x.kills) (fun x y => sub_nonpos) a l
    obtain ⟨w, hw, hw2⟩ := sort_head_isFirstMax PlayerStat.wins
      (fun x y => y.wins - x.wins) (fun x y => sub_nonpos) a l
    obtain ⟨d, hd, hd2⟩ := sort_head_isFirstMax PlayerStat.kd
      (fun x y => y.kd - x.kd) (fun x y => sub_nonpos) a l
    refine ⟨k, w, d, ?_, hk2, hw2, hd2, ?_, ?_, ?_⟩
    · simp only [getTopStats, List.length_cons, Nat.succ_ne_zero, if_false, hk, hw, hd]
    · rw [List.head?_eq_getElem?]; exact hk
    · rw [List.head?_eq_getElem?]; exact hw
    · rw [List.head?_eq_getElem?]; exact hd

/-! ## Sort directive: theorems -/

/-- C5: the sort directive starts as `{kills, desc}`; `handleSort k` sets the key to `k`
and the direction to the opposite of the current one when `k` is the current key, and to
`desc` when `k` is a different key; so applying it twice with the current key restores
the directive (`desc → asc → desc`). -/
theorem handleSort_spec :
    initialState.sortConfig = { key := SortKey.kills, direction := Direction.desc } ∧
    (∀ (s : State) (k : SortKey),
      (handleSort k s).sortConfig.key = k ∧
      (handleSort k s).sortConfig.direction =
        (if s.sortConfig.key = k then s.sortConfig.direction.opposite
         else Direction.desc)) ∧
    (∀ s : State,
      (handleSort s.sortConfig.key (handleSort s.sortConfig.key s)).sortConfig =
        s.sortConfig) ∧
    (handleSort SortKey.kills initialState).sortConfig.direction = Direction.asc ∧
    (handleSort SortKey.kills (handleSort SortKey.kills initialState)).sortConfig.direction =
      Direction.desc := by
  refine ⟨rfl, ?_, ?_, by decide, by decide⟩
  · intro s k
    refine ⟨rfl, ?_⟩
    obtain ⟨_, _, _, _, _, _, _, ⟨key, dir⟩, _⟩ := s
    cases dir <;> by_cases hk : key = k <;> simp [handleSort, hk, Direction.opposite]
  · intro s
    obtain ⟨_, _, _, _, _, _, _, ⟨key, dir⟩, _⟩ := s
    cases dir <;> simp [handleSort]

/-! ## Roster and profile handlers: theorems -/

/-- Removing a friend keeps usernames distinct ignoring case. -/
theorem handleRemoveFriend_caseUnique (toLowerCase : String → String) (u : String) (s : State)
    (h : CaseUnique toLowerCase s.friends) :
    CaseUnique toLowerCase (handleRemoveFriend u s).friends := by
  unfold CaseUnique at h ⊢
  exact List.Nodup.sublist (List.Sublist.map _ (List.filter_sublist _)) h

/-- Adding a friend keeps usernames distinct ignoring case when the fetched record carries
the typed identifier up to case. -/
theorem handleAddFriend_caseUnique (toLowerCase : String → String)
    (fetchPlayerData : String → Except String PlayerStat) (s : State)
    (h : CaseUnique toLowerCase s.friends)
    (hname : ∀ p, fetchPlayerData s.friendId = Except.ok p →
      toLowerCase p.username = toLowerCase s.friendId) :
    CaseUnique toLowerCase (handleAddFriend toLowerCase fetchPlayerData s).state.friends := by
  unfold handleAddFriend
  split_ifs with h1 h2
  · exact h
  · exact h
  · cases hf : fetchPlayerData s.friendId with
    | error message => exact h
    | ok p =>
      have hp := hname p hf
      have hnot : ∀ f ∈ s.friends, toLowerCase f.username ≠ toLowerCase s.friendId := by
        intro f hfm he
        exact h2 (List.any_eq_true.2 ⟨f, hfm, by simpa using he⟩)
      unfold CaseUnique at h ⊢
      simp only [List.map_append, List.map_cons, List.map_nil]
      refine List.Nodup.append h (List.nodup_singleton _) ?_
      intro x hx1 hx2
      obtain ⟨f, hfm, hfe⟩ := List.mem_map.1 hx1
      have hx3 : x = toLowerCase p.username := by simpa using hx2
      exact hnot f hfm (by rw [hfe, hx3, hp])

/-- C6: evaluation of the roster-changing handlers where case-insensitive uniqueness of
usernames is lost. With roster `["Ninja"]` and viewed player `"ninja"`, both
`handleSetAsMyProfile` and the "Add to Friends" action append the player, because their
membership test compares usernames exactly. With roster `["Ninja"]` and typed identifier
`" ninja"`, `handleAddFriend` appends a second `"Ninja"` when the lookup returns that
name, because its test compares the typed text, not the name of the fetched record. Typing
`"Ninja"` and then `"ninja"` with a lookup that echoes the identifier leaves one entry. -/
theorem caseUnique_not_preserved :
    CaseUnique asciiToLowerCase [zeroStat "Ninja"] ∧
    (handleSetAsMyProfile { initialState with
        friends := [zeroStat "Ninja"], player := some (zeroStat "ninja") }).friends =
      [zeroStat "Ninja", zeroStat "ninja"] ∧
    (addToFriends { initialState with
        friends := [zeroStat "Ninja"], player := some (zeroStat "ninja") }).friends =
      [zeroStat "Ninja", zeroStat "ninja"] ∧
    ¬ CaseUnique asciiToLowerCase [zeroStat "Ninja", zeroStat "ninja"] ∧
    (handleAddFriend asciiToLowerCase (fun _ => Except.ok (zeroStat "Ninja"))
        { initialState with friends := [zeroStat "Ninja"], friendId := " ninja" }).state.friends =
      [zeroStat "Ninja", zeroStat "Ninja"] ∧
    ¬ CaseUnique asciiToLowerCase [zeroStat "Ninja", zeroStat "Ninja"] ∧
    (handleAddFriend asciiToLowerCase (fun u => Except.ok (zeroStat u))
        { (handleAddFriend asciiToLowerCase (fun u => Except.ok (zeroStat u))
            { initialState with friendId := "Ninja" }).state with
          friendId := "ninja" }).state.friends =
      [zeroStat "Ninja"] := by
  refine ⟨by decide, by decide, by decide, by decide, by decide, by decide, by decide⟩

/-- C7: when the typed identifier is not blank and the roster already holds an entry whose
username equals it ignoring letter case, `handleAddFriend` performs no lookup, sets the
error to "This player is already in your friends list" and changes nothing else, so the
roster keeps its entries, their order and its length. -/
theorem handleAddFriend_duplicate (toLowerCase : String → String)
    (fetchPlayerData : String → Except String PlayerStat) (s : State)
    (hx : trim s.friendId ≠ "")
    (hdup : ∃ f ∈ s.friends, toLowerCase f.username = toLowerCase s.friendId) :
    (handleAddFriend toLowerCase fetchPlayerData s).lookups = [] ∧
    (handleAddFriend toLowerCase fetchPlayerData s).state =
      { s with error := some "This player is already in your friends list" } ∧
    (handleAddFriend toLowerCase fetchPlayerData s).state.error =
      some "This player is already in your friends list" ∧
    (handleAddFriend toLowerCase fetchPlayerData s).state.friends = s.friends ∧
    (handleAddFriend toLowerCase fetchPlayerData s).state.friends.length =
      s.friends.length := by
  have hany : s.friends.any
      (fun friend => decide (toLowerCase friend.username = toLowerCase s.friendId)) = true := by
    obtain ⟨f, hf, hfe⟩ := hdup
    exact List.any_eq_true.2 ⟨f, hf, by simpa using hfe⟩
  unfold handleAddFriend
  rw [if_neg hx, if_pos hany]
  exact ⟨rfl, rfl, rfl, rfl, rfl⟩

/-- Witness for C7: roster `["Ninja"]`, typed identifier `"ninja"`. -/
theorem handleAddFriend_duplicate_witness :
    trim "ninja" ≠ "" ∧
    (∃ f ∈ [zeroStat "Ninja"], asciiToLowerCase f.username = asciiToLowerCase "ninja") ∧
    (handleAddFriend asciiToLowerCase (fun u => Except.ok (zeroStat u))
        { initialState with friends := [zeroStat "Ninja"], friendId := "ninja" }).lookups = [] ∧
    (handleAddFriend asciiToLowerCase (fun u => Except.ok (zeroStat u))
        { initialState with friends := [zeroStat "Ninja"], friendId := "ninja" }).state.friends =
      [zeroStat "Ninja"] :=
  have h := handleAddFriend_duplicate asciiToLowerCase (fun u => Except.ok (zeroStat u))
    { initialState with friends := [zeroStat "Ninja"], friendId := "ninja" }
    (by decide) ⟨zeroStat "Ninja", by simp, by decide⟩
  ⟨by decide, ⟨zeroStat "Ninja", by simp, by decide⟩, h.1, h.2.2.2.1⟩

/-- C8: `handleRemoveFriend u` yields exactly the entries of the roster whose username is
not equal to `u`, in their original relative order: a sub-list of the roster, unchanged
when no entry is named `u`, and keeping every entry whose username differs from `u`, also
when it differs only by letter case. -/
theorem handleRemoveFriend_spec :
    (∀ (u : String) (s : State),
      (handleRemoveFriend u s).friends = s.friends.filter (fun f => decide (f.username ≠ u)) ∧
      List.Sublist (handleRemoveFriend u s).friends s.friends ∧
      (∀ f, f ∈ (handleRemoveFriend u s).friends ↔ f ∈ s.friends ∧ f.username ≠ u) ∧
      ((∀ f ∈ s.friends, f.username ≠ u) → (handleRemoveFriend u s).friends = s.friends) ∧
      (∀ (toLowerCase : String → String), ∀ f ∈ s.friends,
        toLowerCase f.username = toLowerCase u → f.username ≠ u →
          f ∈ (handleRemoveFriend u s).friends)) ∧
    (handleRemoveFriend "ninja"
        { initialState with friends := [zeroStat "Ninja", zeroStat "ninja"] }).friends =
      [zeroStat "Ninja"] := by
  refine ⟨?_, by decide⟩
  intro u s
  refine ⟨rfl, List.filter_sublist _, ?_, ?_, ?_⟩
  · intro f
    simp [handleRemoveFriend, List.mem_filter]
  · intro h
    simp only [handleRemoveFriend]
    exact List.filter_eq_self.2 (fun f hf => by simpa using h f hf)
  · intro _ f hf _ hne
    simp only [handleRemoveFriend]
    exact List.mem_filter.2 ⟨hf, by simpa using hne⟩

/-- C9: with `stat` the viewed player, `handleSetAsMyProfile` makes the profile `stat`
and leaves a roster that contains an entry named `stat.username`; the new roster is the old
one when it already had an entry with exactly that username, and otherwise the old one with
`stat` appended at the end, so the prior entries are all kept in order. -/
theorem handleSetAsMyProfile_spec (s : State) (stat : PlayerStat) :
    (handleSetAsMyProfile { s with player := some stat }).myProfile = some stat ∧
    (∃ f ∈ (handleSetAsMyProfile { s with player := some stat }).friends,
      f.username = stat.username) ∧
    (handleSetAsMyProfile { s with player := some stat }).friends =
      (if ∃ f ∈ s.friends, f.username = stat.username then s.friends
       else s.friends ++ [stat]) ∧
    ((handleSetAsMyProfile { s with player := some stat }).friends = s.friends ∨
     (handleSetAsMyProfile { s with player := some stat }).friends = s.friends ++ [stat]) ∧
    s.friends <+: (handleSetAsMyProfile { s with player := some stat }).friends := by
  by_cases h : ∃ f ∈ s.friends, f.username = stat.username
  · have hany : s.friends.any (fun f => decide (f.username = stat.username)) = true := by
      obtain ⟨f, hf, hfe⟩ := h
      exact List.any_eq_true.2 ⟨f, hf, by simpa using hfe⟩
    have hfr : (handleSetAsMyProfile { s with player := some stat }).friends = s.friends := by
      simp [handleSetAsMyProfile, hany]
    have hpr : (handleSetAsMyProfile { s with player := some stat }).myProfile = some stat := by
      simp [handleSetAsMyProfile, hany]
    rw [hfr, if_pos h]
    exact ⟨hpr, h, rfl, Or.inl rfl, List.prefix_refl _⟩
  · have hany : s.friends.any (fun f => decide (f.username = stat.username)) = false := by
      rw [List.any_eq_false]
      intro f hf
      have : f.username ≠ stat.username := fun he => h ⟨f, hf, he⟩
      simpa using this
    have hfr : (handleSetAsMyProfile { s with player := some stat }).friends =
        s.friends ++ [stat] := by
      simp [handleSetAsMyProfile, hany]
    have hpr : (handleSetAsMyProfile { s with player := some stat }).myProfile = some stat := by
      simp [handleSetAsMyProfile, hany]
    rw [hfr, if_neg h]
    exact ⟨hpr, ⟨stat, by simp, rfl⟩, rfl, Or.inr rfl, List.prefix_append _ _⟩

/-- C10: the failure paths leave roster and profile unchanged. `handleSearch` never changes
them; on a blank query it changes nothing, on a failed lookup it shows the failure's
message, and on a successful lookup it sets the viewed player (and the tab showing it).
`handleAddFriend` never changes the profile; on a blank identifier it changes nothing, on a
failed lookup it leaves the roster unchanged, and for a non-blank identifier that matches no
roster entry it makes the lookup and, when that fails, shows the message prefixed with
"Couldn't add friend: ". -/
theorem failure_paths_keep_roster_and_profile :
    (∀ (fetchPlayerData : String → Except String PlayerStat) (s : State),
      (handleSearch fetchPlayerData s).state.friends = s.friends ∧
      (handleSearch fetchPlayerData s).state.myProfile = s.myProfile) ∧
    (∀ (fetchPlayerData : String → Except String PlayerStat) (s : State),
      trim s.searchQuery = "" →
        handleSearch fetchPlayerData s = { state := s, lookups := [] }) ∧
    (∀ (fetchPlayerData : String → Except String PlayerStat) (s : State) (message : String),
      trim s.searchQuery ≠ "" → fetchPlayerData s.searchQuery = Except.error message →
        handleSearch fetchPlayerData s =
          { state := { s with error := some message, player := none, loading := false },
            lookups := [s.searchQuery] }) ∧
    (∀ (fetchPlayerData : String → Except String PlayerStat) (s : State) (p : PlayerStat),
      trim s.searchQuery ≠ "" → fetchPlayerData s.searchQuery = Except.ok p →
        handleSearch fetchPlayerData s =
          { state := { s with player := some p, activeTab := Tab.player, error := none,
                              loading := false },
            lookups := [s.searchQuery] }) ∧
    (∀ (toLowerCase : String → String) (fetchPlayerData : String → Except String PlayerStat)
        (s : State),
      (handleAddFriend toLowerCase fetchPlayerData s).state.myProfile = s.myProfile) ∧
    (∀ (toLowerCase : String → String) (fetchPlayerData : String → Except String PlayerStat)
        (s : State),
      trim s.friendId = "" →
        handleAddFriend toLowerCase fetchPlayerData s = { state := s, lookups := [] }) ∧
    (∀ (toLowerCase : String → String) (fetchPlayerData : String → Except String PlayerStat)
        (s : State) (message : String),
      fetchPlayerData s.friendId = Except.error message →
        (handleAddFriend toLowerCase fetchPlayerData s).state.friends = s.friends) ∧
    (∀ (toLowerCase : String → String) (fetchPlayerData : String → Except String PlayerStat)
        (s : State) (message : String),
      trim s.friendId ≠ "" →
      (∀ f ∈ s.friends, toLowerCase f.username ≠ toLowerCase s.friendId) →
      fetchPlayerData s.friendId = Except.error message →
        handleAddFriend toLowerCase fetchPlayerData s =
          { state := { s with error := some ("Couldn't add friend: " ++ message),
                              loading := false },
            lookups := [s.friendId] }) ∧
    handleAddFriend asciiToLowerCase (fun _ => Except.error "Player not found")
        { initialState with friends := [zeroStat "Ninja"], friendId := "Tfue",
                            myProfile := some (zeroStat "Ninja") } =
      { state := { initialState with friends := [zeroStat "Ninja"], friendId := "Tfue",
                                     myProfile := some (zeroStat "Ninja"),
                                     error := some "Couldn't add friend: Player not found" },
        lookups := ["Tfue"] } ∧
    handleSearch (fun _ => Except.error "Player not found")
        { initialState with friends := [zeroStat "Ninja"], searchQuery := "Tfue",
                            myProfile := some (zeroStat "Ninja") } =
      { state := { initialState with friends := [zeroStat "Ninja"], searchQuery := "Tfue",
                                     myProfile := some (zeroStat "Ninja"),
                                     error := some "Player not found" },
        lookups := ["Tfue"] } := by
  refine ⟨?_, ?_, ?_, ?_, ?_, ?_, ?_, ?_, by decide, by decide⟩
  · intro fetchPlayerData s
    unfold handleSearch
    split_ifs
    · exact ⟨rfl, rfl⟩
    · cases fetchPlayerData s.searchQuery <;> exact ⟨rfl, rfl⟩
  · intro fetchPlayerData s h
    unfold handleSearch
    rw [if_pos h]
  · intro fetchPlayerData s message h hf
    unfold handleSearch
    rw [if_neg h, hf]
  · intro fetchPlayerData s p h hf
    unfold handleSearch
    rw [if_neg h, hf]
  · intro toLowerCase fetchPlayerData s
    unfold handleAddFriend
    split_ifs
    · rfl
    · rfl
    · cases fetchPlayerData s.friendId <;> rfl
  · intro toLowerCase fetchPlayerData s h
    unfold handleAddFriend
    rw [if_pos h]
  · intro toLowerCase fetchPlayerData s message hf
    unfold handleAddFriend
    rw [hf]
    split_ifs <;> rfl
  · intro toLowerCase fetchPlayerData s message hx hnodup hf
    have hany : ¬ (s.friends.any
        (fun friend => decide (toLowerCase friend.username = toLowerCase s.friendId)) = true) := by
      intro h
      obtain ⟨f, hf1, hf2⟩ := List.any_eq_true.1 h
      exact hnodup f hf1 (by simpa using hf2)
    unfold handleAddFriend
    rw [if_neg hx, if_neg hany, hf]

/-- C11: `handleRemoveFriend u` leaves the profile unchanged (it changes no state cell but
the roster), also when the profile's username is `u`: removing "Ninja" from the roster
`["Ninja"]` with profile "Ninja" leaves an empty roster and the profile still "Ninja". -/
theorem handleRemoveFriend_keeps_profile :
    (∀ (u : String) (s : State), (handleRemoveFriend u s).myProfile = s.myProfile) ∧
    (∀ (u : String) (s : State),
      handleRemoveFriend u s = { s with friends := (handleRemoveFriend u s).friends }) ∧
    (∀ (s : State) (p : PlayerStat),
      (handleRemoveFriend p.username { s with myProfile := some p }).myProfile = some p ∧
      ∀ f ∈ (handleRemoveFriend p.username { s with myProfile := some p }).friends,
        f.username ≠ p.username) ∧
    (handleRemoveFriend "Ninja"
        { initialState with friends := [zeroStat "Ninja"],
                            myProfile := some (zeroStat "Ninja") }).friends = [] ∧
    (handleRemoveFriend "Ninja"
        { initialState with friends := [zeroStat "Ninja"],
                            myProfile := some (zeroStat "Ninja") }).myProfile =
      some (zeroStat "Ninja") := by
  refine ⟨fun _ _ => rfl, fun _ _ => rfl, ?_, by decide, by decide⟩
  intro s p
  refine ⟨rfl, ?_⟩
  intro f hf
  simp only [handleRemoveFriend] at hf
  simpa using (List.mem_filter.1 hf).2

/-! ## Stats source: theorems -/

/-- The expression `raw || 0` is the zero-defaulted raw value. -/
theorem or_zero_numericDefault (raw : JsValue) :
    NumericDefault raw (raw.or (JsValue.number 0)) := by
  unfold NumericDefault JsValue.isNullish JsValue.or
  cases raw with
  | undefined => simp [JsValue.truthy]
  | null => simp [JsValue.truthy]
  | bool b => cases b <;> simp [JsValue.truthy]
  | number q =>
    by_cases hq : q = 0
    · simp [JsValue.truthy, hq]
    · simp [JsValue.truthy, hq]
  | string s =>
    by_cases hs : s = ""
    · simp [JsValue.truthy, hs]
    · simp [JsValue.truthy, hs]
  | object => simp [JsValue.truthy]

/-- The expression `raw || 'Unknown Player'` is the defaulted raw name. -/
theorem or_unknown_nameDefault (raw : JsValue) :
    NameDefault raw (raw.or (JsValue.string "Unknown Player")) := by
  unfold NameDefault JsValue.isNullish JsValue.or
  cases raw with
  | undefined => simp [JsValue.truthy]
  | null => simp [JsValue.truthy]
  | bool b => cases b <;> simp [JsValue.truthy]
  | number q =>
    by_cases hq : q = 0
    · simp [JsValue.truthy, hq]
    · simp [JsValue.truthy, hq]
  | string s =>
    by_cases hs : s = ""
    · simp [JsValue.truthy, hs]
    · simp [JsValue.truthy, hs]
  | object => simp [JsValue.truthy]

/-- A raw value that stands for the number `q` comes out of `raw || 0` as `q`. -/
theorem or_zero_of_rawNumber (raw : JsValue) (q : ℚ) (h : rawNumber raw = some q) :
    raw.or (JsValue.number 0) = JsValue.number q := by
  cases raw with
  | undefined => simp [rawNumber] at h; simp [JsValue.or, JsValue.truthy, h]
  | null => simp [rawNumber] at h; simp [JsValue.or, JsValue.truthy, h]
  | bool b => simp [rawNumber] at h
  | number r =>
    simp only [rawNumber, Option.some.injEq] at h
    subst h
    by_cases hr : r = 0
    · simp [JsValue.or, JsValue.truthy, hr]
    · simp [JsValue.or, JsValue.truthy, hr]
  | string s => simp [rawNumber] at h
  | object => simp [rawNumber] at h

/-- A raw value that stands for the username `u` comes out of `raw || 'Unknown Player'`
as `u`. -/
theorem or_unknown_of_rawName (raw : JsValue) (u : String) (h : rawName raw = some u) :
    raw.or (JsValue.string "Unknown Player") = JsValue.string u := by
  cases raw with
  | undefined => simp [rawName] at h; simp [JsValue.or, JsValue.truthy, h]
  | null => simp [rawName] at h; simp [JsValue.or, JsValue.truthy, h]
  | bool b => simp [rawName] at h
  | number r => simp [rawName] at h
  | string s =>
    simp only [rawName, Option.some.injEq] at h
    subst h
    by_cases hs : s = ""
    · simp [JsValue.or, JsValue.truthy, hs]
    · simp [JsValue.or, JsValue.truthy, hs]
  | object => simp [rawName] at h

/-- C12, as stated, fails on an empty account name: the response carries the name `""`,
which is present (neither `undefined` nor `null`), yet the record built has username
"Unknown Player", not the raw name. -/
theorem fetchPlayerData_empty_name :
    fetchPlayerData
      { ok := true,
        data := some {
          account := some { name := JsValue.string "" },
          battlePass := some { level := JsValue.number 7 },
          overall := some { kills := JsValue.number 5, wins := JsValue.number 1,
                            kd := JsValue.number 2, matches_ := JsValue.number 9,
                            winRate := JsValue.number 11 } },
        error := JsValue.undefined } =
      Except.ok { username := JsValue.string "Unknown Player", level := JsValue.number 7,
                  kills := JsValue.number 5, wins := JsValue.number 1, kd := JsValue.number 2,
                  matchesPlayed := JsValue.number 9, winRate := JsValue.number 11 } ∧
    ¬ (JsValue.string "").isNullish ∧
    JsValue.string "Unknown Player" ≠ JsValue.string "" := by
  refine ⟨?_, ?_, by decide⟩
  · simp [fetchPlayerData, battlePassLevel, JsValue.or, JsValue.truthy]
  · simp [JsValue.isNullish]

/-- C12, amended: for every response that is `ok` and carries the data, account and
overall-stats objects, `fetchPlayerData` returns a record in which no field is `undefined`
or `null`; each of level, kills, wins, kd, matchesPlayed and winRate is the raw number
when the source supplies one and `0` when it omits it; and username is the raw account
name when that is a non-empty string and "Unknown Player" when it is missing or empty.
When every raw field is a number or missing and the name is a string or missing, the
record is the `PlayerStat` made of those values. -/
theorem fetchPlayerData_defaults (error : JsValue) (account : RawAccount)
    (battlePass : Option RawBattlePass) (stats : RawOverall) :
    ∃ p : FetchedPlayer,
      fetchPlayerData
        { ok := true,
          data := some { account := some account, battlePass := battlePass,
                         overall := some stats },
          error := error } = Except.ok p ∧
      NameDefault account.name p.username ∧
      NumericDefault (battlePassLevel battlePass) p.level ∧
      NumericDefault stats.kills p.kills ∧
      NumericDefault stats.wins p.wins ∧
      NumericDefault stats.kd p.kd ∧
      NumericDefault stats.matches_ p.matchesPlayed ∧
      NumericDefault stats.winRate p.winRate ∧
      (∀ (username : String) (level kills wins kd matchesPlayed winRate : ℚ),
        rawName account.name = some username →
        rawNumber (battlePassLevel battlePass) = some level →
        rawNumber stats.kills = some kills →
        rawNumber stats.wins = some wins →
        rawNumber stats.kd = some kd →
        rawNumber stats.matches_ = some matchesPlayed →
        rawNumber stats.winRate = some winRate →
        p.toPlayerStat? =
          some { username := username, level := level, kills := kills, wins := wins,
                 kd := kd, matchesPlayed := matchesPlayed, winRate := winRate }) := by
  refine ⟨_, rfl, or_unknown_nameDefault _, or_zero_numericDefault _, or_zero_numericDefault _,
    or_zero_numericDefault _, or_zero_numericDefault _, or_zero_numericDefault _,
    or_zero_numericDefault _, ?_⟩
  intro username level kills wins kd matchesPlayed winRate hu hl hk hw hd hm hr
  simp only [or_unknown_of_rawName _ _ hu, or_zero_of_rawNumber _ _ hl,
    or_zero_of_rawNumber _ _ hk, or_zero_of_rawNumber _ _ hw, or_zero_of_rawNumber _ _ hd,
    or_zero_of_rawNumber _ _ hm, or_zero_of_rawNumber _ _ hr, FetchedPlayer.toPlayerStat?]

/-! ## Rank order and accent colour: theorems -/

/-- The level of the returned tier, by cases on the score. -/
theorem tierLevel_calculateRank (stats : PlayerStat) :
    tierLevel (calculateRank stats).name =
      if (score stats).gt 1000 then 5
      else if (score stats).gt 750 then 4
      else if (score stats).gt 500 then 3
      else if (score stats).gt 300 then 2
      else if (score stats).gt 150 then 1
      else 0 := by
  rw [calculateRank_name]
  split_ifs <;> decide

/-- The score does not decrease when no statistic decreases: every rounded product and sum
is monotone. -/
theorem score_mono (a b : PlayerStat) (hw : a.wins ≤ b.wins) (hk : a.kills ≤ b.kills)
    (hr : a.winRate ≤ b.winRate) (hd : a.kd ≤ b.kd) : (score a).Below (score b) := by
  unfold score mul64
  refine add_below _ _ _ _ (add_below _ _ _ _ (add_below _ _ _ _ ?_ ?_) ?_) ?_
  · exact round64_below _ _ (mul_le_mul_of_nonneg_right hw (by norm_num))
  · exact round64_below _ _ (mul_le_mul_of_nonneg_right hk (by norm_num))
  · exact round64_below _ _ (mul_le_mul_of_nonneg_right hr (by norm_num))
  · exact round64_below _ _ (mul_le_mul_of_nonneg_right hd (by norm_num))

/-- The record with all statistics zero scores zero. -/
theorem score_zeroStat (username : String) : score (zeroStat username) = JsNumber.finite 0 := by
  unfold score mul64 zeroStat
  simp only [zero_mul, round64_zero, finite_add_finite, add_zero]

/-- Every rank returned is one of the six listed objects. -/
theorem calculateRank_mem_allRanks (stats : PlayerStat) : calculateRank stats ∈ allRanks := by
  unfold calculateRank allRanks
  split_ifs <;> simp

/-- C13: `calculateRank` is monotone: when `a` has no more wins, kills, winRate and kd
than `b`, the tier of `a` is not above the tier of `b` in the order Common < Uncommon <
Rare < Epic < Legendary < Mythic (the six names have the six distinct levels 0 to 5); and
the accent colour depends on the tier name alone: two returned ranks have equal names
exactly when they have equal colours. -/
theorem calculateRank_monotone_colour :
    (∀ a b : PlayerStat, a.wins ≤ b.wins → a.kills ≤ b.kills → a.winRate ≤ b.winRate →
      a.kd ≤ b.kd → tierLevel (calculateRank a).name ≤ tierLevel (calculateRank b).name) ∧
    List.map tierLevel ["Common", "Uncommon", "Rare", "Epic", "Legendary", "Mythic"] =
      [0, 1, 2, 3, 4, 5] ∧
    (∀ a b : PlayerStat,
      (calculateRank a).name = (calculateRank b).name ↔
        (calculateRank a).color = (calculateRank b).color) ∧
    tierLevel (calculateRank (zeroStat "a")).name = 0 ∧
    tierLevel (calculateRank { username := "Ninja", level := 50, kills := 500, wins := 100,
                               kd := 2, matchesPlayed := 0, winRate := 30 }).name = 4 := by
  refine ⟨?_, by decide, ?_, ?_, ?_⟩
  · intro a b hw hk hr hd
    have hs := score_mono a b hw hk hr hd
    have g1 := gt_of_below _ _ 1000 hs
    have g2 := gt_of_below _ _ 750 hs
    have g3 := gt_of_below _ _ 500 hs
    have g4 := gt_of_below _ _ 300 hs
    have g5 := gt_of_below _ _ 150 hs
    rw [tierLevel_calculateRank, tierLevel_calculateRank]
    by_cases a1 : (score a).gt 1000 = true
    · rw [if_pos a1, if_pos (g1 a1)]
    rw [if_neg a1]
    by_cases a2 : (score a).gt 750 = true
    · have b2 := g2 a2
      rw [if_pos a2]
      split_ifs <;> omega
    rw [if_neg a2]
    by_cases a3 : (score a).gt 500 = true
    · have b3 := g3 a3
      rw [if_pos a3]
      split_ifs <;> omega
    rw [if_neg a3]
    by_cases a4 : (score a).gt 300 = true
    · have b4 := g4 a4
      rw [if_pos a4]
      split_ifs <;> omega
    rw [if_neg a4]
    by_cases a5 : (score a).gt 150 = true
    · have b5 := g5 a5
      rw [if_pos a5]
      split_ifs <;> omega
    rw [if_neg a5]
    exact Nat.zero_le _
  · intro a b
    have hall : ∀ r1 ∈ allRanks, ∀ r2 ∈ allRanks, (r1.name = r2.name ↔ r1.color = r2.color) := by
      decide
    exact hall _ (calculateRank_mem_allRanks a) _ (calculateRank_mem_allRanks b)
  · rw [tierLevel_calculateRank, score_zeroStat]
    simp only [finite_gt]
    norm_num
  · have hn : ({ username := "Ninja", level := 50, kills := 500, wins := 100, kd := 2,
                 matchesPlayed := 0, winRate := 30 } : PlayerStat) = ninja := rfl
    rw [hn, tierLevel_calculateRank, score_ninja]
    simp only [finite_gt]
    norm_num

end FortniteLeaderboard
